import Mathlib

/-!
Verification development for the photo-blog admin panel (`src/admin/server.js`).

The server is a CRUD layer over two on-disk formats: a Markdown post file with
YAML-like front matter per album, and a JSON array of image descriptors per
album, plus uploads to a remote object store.  This file shallowly embeds the
album/image metadata core:

* text content of a post file is represented as its list of lines (the code
  only ever splits content on `\r?\n`; the writer joins lines with `\n`);
  a trailing `\r` of a line is handled where the code's regexes handle it;
* JSON numbers are modelled as `ℚ` (exact arithmetic; JavaScript floats are
  approximated exactly, which is faithful for the short decimals that occur);
* JavaScript's dynamically typed front-matter values (string or array of
  strings) are the inductive `FMVal`; JS truthiness is modelled per type
  (`""`, `0` and `NaN` are falsy, arrays are always truthy);
* `parseInt` is modelled with exact integers (no float precision loss) and
  `NaN` as `none`;
* fallible external calls (image decoding, re-encoding, uploads, URL parsing)
  are modelled with explicit per-call outcomes supplied as data;
* `Array.prototype.sort` is stable by the ECMAScript spec; it is modelled as a
  stable insertion sort (for comparators that are consistent this is the
  unique stable result; for inconsistent comparators JS leaves the order
  implementation-defined and this model fixes one outcome).
-/

/-! ## Basic string helpers (JavaScript primitive operations) -/

/-- Whitespace characters recognised by JS `trim` / `parseInt` (the common
ones; lines in this model never contain `\n`). -/
def isWS (c : Char) : Bool :=
  c = ' ' || c = '\t' || c = '\n' || c = '\r' || c = '\x0b' || c = '\x0c'

/-- Characters matched by the regex class `[\w-]` (front-matter keys). -/
def isWordChar (c : Char) : Bool :=
  ('a' ≤ c && c ≤ 'z') || ('A' ≤ c && c ≤ 'Z') || ('0' ≤ c && c ≤ '9') || c = '_' || c = '-'

/-- Digit test for `parseInt`. -/
def isDigitC (c : Char) : Bool := '0' ≤ c && c ≤ '9'

/-- List-level trim: drop whitespace from both ends (JS `String.prototype.trim`). -/
def trimList (cs : List Char) : List Char :=
  ((cs.dropWhile isWS).reverse.dropWhile isWS).reverse

/-- JS `s.trim()`. -/
def jsTrim (s : String) : String := .mk (trimList s.data)

/-- JS `s.split(',')` on the character list. `[]` input yields `[[]]`,
matching `"".split(',') = [""]`. -/
def splitComma : List Char → List (List Char)
  | [] => [[]]
  | c :: cs =>
    if c = ',' then [] :: splitComma cs
    else
      match splitComma cs with
      | [] => [[c]]
      | h :: t => (c :: h) :: t

/-- JS `s.split(',')` at the string level. -/
def splitCommaStr (s : String) : List String := (splitComma s.data).map .mk

/-- Character-level join with a separator (JS `Array.prototype.join`). -/
def joinSepC (sep : List Char) : List (List Char) → List Char
  | [] => []
  | [x] => x
  | x :: y :: xs => x ++ sep ++ joinSepC sep (y :: xs)

/-- JS `l.join(sep)` at the string level. -/
def joinSep (sep : String) (l : List String) : String :=
  .mk (joinSepC sep.data (l.map String.data))

/-- JS `s.replace(/"/g, '\\"')`: every double quote becomes backslash-quote
(source line 273 of `server.js`). -/
def escQ (s : String) : String :=
  .mk (s.data.flatMap fun c => if c = '"' then ['\\', c] else [c])

/-- JS `s.startsWith(c)` for a single-character pattern. -/
def startsC (s : String) (c : Char) : Bool :=
  match s.data with
  | [] => false
  | d :: _ => d = c

/-- JS `s.endsWith(c)` for a single-character pattern. -/
def endsC (s : String) (c : Char) : Bool :=
  match s.data.getLast? with
  | none => false
  | some d => d = c

/-- JS `s.slice(1, -1)`: drop the first and last character. -/
def sliceEnds (s : String) : String := .mk (s.data.drop 1 |>.dropLast)

/-- Character-list prefix test. -/
def isPrefixC : List Char → List Char → Bool
  | [], _ => true
  | _ :: _, [] => false
  | p :: ps, c :: cs => p = c && isPrefixC ps cs

/-- JS `s.startsWith(pat)` for a multi-character pattern. -/
def startsWithStr (s pat : String) : Bool := isPrefixC pat.data s.data

/-- First occurrence of `pat` in a character list: the part before it and
the part after it (JS `indexOf`-style search, used to model `URL`). -/
def findSub (pat : List Char) : List Char → Option (List Char × List Char)
  | [] => if pat = [] then some ([], []) else none
  | c :: cs =>
    if isPrefixC pat (c :: cs) then some ([], (c :: cs).drop pat.length)
    else (findSub pat cs).map fun p => (c :: p.1, p.2)

/-- Decimal digit character of a value below 10 (9 and above map to `'9'`,
never reached by the callers). -/
def digitChar10 : Nat → Char
  | 0 => '0' | 1 => '1' | 2 => '2' | 3 => '3' | 4 => '4'
  | 5 => '5' | 6 => '6' | 7 => '7' | 8 => '8' | _ => '9'

/-- Fuel-driven digit expansion (structural recursion so that concrete
evaluation reduces in the kernel); `fuel ≥ n + 1` always suffices. -/
def natCharsAux : Nat → Nat → List Char
  | 0, _ => []
  | fuel + 1, n =>
    if n < 10 then [digitChar10 n]
    else natCharsAux fuel (n / 10) ++ [digitChar10 (n % 10)]

/-- Decimal digits of a natural number, most significant first (the characters
JS produces when interpolating a non-negative integer into a template). -/
def natChars (n : Nat) : List Char := natCharsAux (n + 1) n

/-- Plain decimal rendering of an integer: the `|n| < 10^21` branch of the
ECMAScript `ToString` used by `` `${n}` `` (see `jsNumToStr`). -/
def intToStr (n : Int) : String :=
  if n < 0 then .mk ('-' :: natChars n.natAbs) else .mk (natChars n.natAbs)

/-- ECMAScript `ToString` of an integral number, as `` `${n}` `` produces it:
plain decimal digits while `|n| < 10^21`, and from `10^21` on exponential
notation — the significand digits with trailing zeros dropped, a dot before
the remaining digits if any, and a `e+` exponent one less than the digit
count.  Integers are kept exact, consistent with the exact treatment of
numbers elsewhere in this development. -/
def jsNumToStr (n : Int) : String :=
  if n.natAbs < 10 ^ 21 then intToStr n
  else
    let ds := natChars n.natAbs
    let sig := (ds.reverse.dropWhile (· = '0')).reverse
    (if n < 0 then "-" else "") ++ String.mk (sig.take 1)
      ++ (if sig.drop 1 = [] then "" else "." ++ String.mk (sig.drop 1))
      ++ "e+" ++ intToStr ((ds.length : Int) - 1)

/-- Numeric value of a list of decimal digit characters. -/
def digitsToNat (ds : List Char) : Nat :=
  ds.foldl (fun a c => 10 * a + (c.toNat - 48)) 0

/-- Value of a list of hexadecimal digit characters. -/
def hexToNat (ds : List Char) : Nat :=
  ds.foldl (fun a c =>
    16 * a + (if isDigitC c then c.toNat - 48
              else if 'a' ≤ c && c ≤ 'f' then c.toNat - 87
              else c.toNat - 55)) 0

/-- Hex-digit test (`parseInt` radix-16 digits). -/
def isHexDigit (c : Char) : Bool :=
  isDigitC c || ('a' ≤ c && c ≤ 'f') || ('A' ≤ c && c ≤ 'F')

/-- Unsigned part of JS `parseInt`: an optional `0x`/`0X` prefix switches to
hexadecimal, otherwise the longest leading run of decimal digits is taken;
no digits means `NaN` (`none`). -/
def parseNatLead (cs : List Char) : Option Nat :=
  match cs with
  | '0' :: x :: rest =>
    if x = 'x' || x = 'X' then
      let ds := rest.takeWhile isHexDigit
      if ds = [] then none else some (hexToNat ds)
    else
      some (digitsToNat (('0' :: x :: rest).takeWhile isDigitC))
  | _ =>
    let ds := cs.takeWhile isDigitC
    if ds = [] then none else some (digitsToNat ds)

/-- JS `parseInt(s)` (radix 10/16 auto-detection, `NaN` as `none`; exact
integers). -/
def parseIntJS (s : String) : Option Int :=
  match s.data.dropWhile isWS with
  | '-' :: rest => (parseNatLead rest).map (fun n => -(n : Int))
  | '+' :: rest => (parseNatLead rest).map (fun n => (n : Int))
  | cs => (parseNatLead cs).map (fun n => (n : Int))

/-- JS `String(i).padStart(3, '0')` used for image numbering. -/
def pad3 (i : Nat) : String :=
  let s := natChars i
  .mk (List.replicate (3 - s.length) '0' ++ s)

/-- JS `Array.prototype.indexOf` on a string array: index of the first
occurrence, `-1` if absent. -/
def jsIndexOf : List String → String → Int
  | [], _ => -1
  | a :: as, s =>
    if a = s then 0
    else
      let r := jsIndexOf as s
      if r < 0 then -1 else r + 1

/-! ## Front-matter values -/

/-- Value of one front-matter entry: the line parser at `server.js` lines
162-177 produces either a plain string or (for `[a, b]` values) an array of
trimmed strings. -/
inductive FMVal where
  | str (s : String)
  | arr (xs : List String)
  deriving DecidableEq, Repr

/-- JS truthiness of a front-matter value: the empty string is falsy, every
array (even `[]`) is truthy. -/
def FMVal.truthy : FMVal → Bool
  | .str s => s ≠ ""
  | .arr _ => true

/-- JS `a || b` on an optional front-matter value (missing key is `undefined`,
hence falsy). -/
def fmOr (v : Option FMVal) (d : FMVal) : FMVal :=
  match v with
  | some x => if x.truthy then x else d
  | none => d

/-- JS string coercion `` `${v}` `` of a front-matter value (arrays join with
a comma, as `Array.prototype.toString` does). -/
def fmToStr : FMVal → String
  | .str s => s
  | .arr xs => joinSep "," xs

/-- Reading `frontMatter[k]` from the object built by repeated assignment:
a later line with the same key overwrites an earlier one, so lookup returns
the last binding. -/
def fmLookup : List (String × FMVal) → String → Option FMVal
  | [], _ => none
  | (k, v) :: rest, key =>
    match fmLookup rest key with
    | some r => some r
    | none => if k = key then some v else none

/-! ## Front-matter parsing (`server.js` lines 159-177) -/

/-- Test `(value.startsWith('"') && value.endsWith('"')) ||
(value.startsWith("'") && value.endsWith("'"))` from line 167-168. -/
def strQuoteWrapped (v : String) : Bool :=
  (startsC v '"' && endsC v '"') || (startsC v '\'' && endsC v '\'')

/-- Test `value.startsWith('[') && value.endsWith(']')` from line 172. -/
def strBracketed (v : String) : Bool := startsC v '[' && endsC v ']'

/-- Post-processing of a raw front-matter value (lines 165-174): strip one
layer of symmetric quotes, then parse `[...]` values into arrays of trimmed
strings. -/
def procValue (v : String) : FMVal :=
  let v1 := if strQuoteWrapped v then sliceEnds v else v
  if strBracketed v1 then .arr ((splitCommaStr (sliceEnds v1)).map jsTrim)
  else .str v1

/-- Scanner for the line regex `^([\w-]*?):\s*(.*)$`: the lazy key group
together with the anchored `:` means the key is the run of `[\w-]` characters
up to the first `:`; a non-key character before the first `:` makes the whole
line non-matching. Returns the key and the raw remainder after the colon. -/
def keySpan : List Char → Option (List Char × List Char)
  | [] => none
  | c :: cs =>
    if c = ':' then some ([], cs)
    else if isWordChar c then (keySpan cs).map (fun p => (c :: p.1, p.2))
    else none

/-- Parse of one front-matter line: key plus processed value.  `\s*` before
the captured value and the `.trim()` applied to it amount to trimming the
remainder after the colon (`\s` also covers a trailing `\r`). -/
def lineKV (line : String) : Option (String × FMVal) :=
  match keySpan line.data with
  | none => none
  | some (k, rest) => some (.mk k, procValue (.mk (trimList rest)))

/-- Content of a post file, as the list of its `\r?\n`-separated lines. -/
abbrev Lines := List String

/-- Lazy search for the closing line: the first line that starts with `---`
closes the block (the regex ends right at the three dashes, so text after
them on the closing line is allowed); absent such a line there is no
match. -/
def closeSplit : Lines → Option (List String)
  | [] => none
  | l :: ls =>
    if startsWithStr l "---" then some []
    else (closeSplit ls).map (l :: ·)

/-- Front-matter block extraction, lines after the opening `---`: in the lazy
regex `^---\r?\n([\s\S]*?)\r?\n---` the closing `---` needs its own `\r?\n`,
distinct from the one consumed right after the opener, so the line
immediately after the opener is always part of the capture and can never
close the block; after it, the first line starting with `---` closes. -/
def takeUntilClose : Lines → Option (List String)
  | [] => none
  | l :: ls => (closeSplit ls).map (l :: ·)

/-- Front-matter block of a post file: the first line must be exactly `---`
(the regex is anchored and requires a newline right after the dashes). -/
def fmSplitLines (ls : Lines) : Option (List String) :=
  match ls with
  | [] => none
  | l0 :: rest => if l0 = "---" then takeUntilClose rest else none

/-- Key-value pairs of a list of front-matter lines (non-matching lines are
skipped, later duplicates overwrite earlier ones via `fmLookup`). -/
def parseLines (ls : List String) : List (String × FMVal) := ls.filterMap lineKV

/-- Front matter of a post file, or `none` when the file has no parseable
front-matter block (such an album is skipped by `getAlbums`). -/
def parseFM (ls : Lines) : Option (List (String × FMVal)) :=
  (fmSplitLines ls).map parseLines

/-! ## Image records (`server.js` lines 180-193) -/

/-- Normalized image record (the current descriptor shape; `aspectRatio`,
`width`, `height` are JSON numbers modelled as `ℚ`). -/
structure Image where
  url : String
  thumb : String
  aspectRatio : ℚ
  width : ℚ
  height : ℚ
  deriving DecidableEq, Repr

/-- Raw JSON descriptor entry as read from disk: current keys and the legacy
keys `imageFull-link` / `thumbnail-link` / `aspect-ratio`; a missing key is
`none`. -/
structure RawImage where
  url : Option String := none
  thumb : Option String := none
  aspectRatio : Option ℚ := none
  imageFullLink : Option String := none
  thumbnailLink : Option String := none
  aspectRatioLegacy : Option ℚ := none
  width : Option ℚ := none
  height : Option ℚ := none
  deriving DecidableEq, Repr

/-- JS `a || b` for an optional string (absent and `""` are falsy). -/
def strOr (v : Option String) (d : String) : String :=
  match v with
  | some s => if s = "" then d else s
  | none => d

/-- JS `a || b` for an optional JSON number (absent and `0` are falsy). -/
def numOr (v : Option ℚ) (d : ℚ) : ℚ :=
  match v with
  | some q => if q = 0 then d else q
  | none => d

/-- Normalization of one raw record (lines 184-190):
`url: img.url || img['imageFull-link'] || ''`, same for `thumb`,
`aspectRatio: parseFloat(img.aspectRatio || img['aspect-ratio'] || 1.5)`
(`parseFloat` of a number is that number), `width/height: img.width || 0`. -/
def normalizeImage (img : RawImage) : Image where
  url := strOr img.url (strOr img.imageFullLink "")
  thumb := strOr img.thumb (strOr img.thumbnailLink "")
  aspectRatio := numOr img.aspectRatio (numOr img.aspectRatioLegacy (3/2))
  width := numOr img.width 0
  height := numOr img.height 0

/-- Content of a descriptor file: a JSON array whose entries are objects or
`null` (`JSON.stringify` writes `undefined` array entries as `null`, which
`reorderImages` can produce). -/
abbrev JsonArr := List (Option RawImage)

/-- Image list of an album (lines 180-193): reading the descriptor maps the
normalizer over the array inside `try`; a `null` entry makes `img.url` throw,
the catch leaves `images = []`.  `none` input models an unreadable file. -/
def normalizeImages (json : Option JsonArr) : List Image :=
  match json with
  | none => []
  | some arr =>
    match arr.mapM id with
    | none => []
    | some raws => raws.map normalizeImage

/-! ## Album aggregate (`server.js` lines 196-224) -/

/-- Album aggregate assembled by `getAlbums`.  `title`, `description`,
`developer` and `date` keep the dynamic front-matter type (a bracketed value
parses to an array, and the code lets that flow through). -/
structure Album where
  slug : String
  title : FMVal
  description : FMVal
  developer : FMVal
  date : FMVal
  tags : List String
  cardImage : Int
  cardOffset : Int
  cardOffsetX : Int
  cardZoom : Int
  bannerImage : Int
  bannerOffset : Int
  bannerOffsetX : Int
  bannerZoom : Int
  images : List Image
  imageCount : Nat
  postFile : String
  jsonFile : String
  deriving DecidableEq, Repr

/-- JS `parseInt` applied to a front-matter value (`parseInt(undefined)` and
`parseInt` of a non-numeric string are `NaN`, i.e. `none`; an array is
coerced to its comma-joined string first). -/
def parseIntFM (v : Option FMVal) : Option Int :=
  match v with
  | none => none
  | some x => parseIntJS (fmToStr x)

/-- JS `parseInt(...) || d`: `NaN` and `0` both fall back to the default. -/
def intOr (o : Option Int) (d : Int) : Int :=
  match o with
  | some n => if n = 0 then d else n
  | none => d

/-- Tags of an album (lines 196-203): a truthy array is taken verbatim, a
truthy string is split on commas and trimmed, anything falsy gives `[]`. -/
def parseTagsFM (v : Option FMVal) : List String :=
  match v with
  | some x =>
    if x.truthy then
      match x with
      | .arr xs => xs
      | .str s => (splitCommaStr s).map jsTrim
    else []
  | none => []

/-- Album assembly from parsed front matter plus the image list
(lines 205-224). -/
def mkAlbum (slug : String) (fm : List (String × FMVal)) (images : List Image)
    (postFile jsonFile : String) : Album where
  slug := slug
  title := fmOr (fmLookup fm "title") (.str slug)
  description := fmOr (fmLookup fm "description") (.str "Virtual Photography")
  developer := fmOr (fmLookup fm "developer") (.str "")
  date := fmOr (fmLookup fm "date") (.str "")
  tags := parseTagsFM (fmLookup fm "tags")
  cardImage := intOr (parseIntFM (fmLookup fm "card-image")) 0
  cardOffset := intOr (parseIntFM (fmLookup fm "card-offset")) 50
  cardOffsetX := intOr (parseIntFM (fmLookup fm "card-offset-x")) 50
  cardZoom := intOr (parseIntFM (fmLookup fm "card-zoom")) 100
  bannerImage := intOr (parseIntFM (fmLookup fm "banner-image")) 0
  bannerOffset := intOr (parseIntFM (fmLookup fm "banner-offset")) 50
  bannerOffsetX := intOr (parseIntFM (fmLookup fm "banner-offset-x")) 50
  bannerZoom := intOr (parseIntFM (fmLookup fm "banner-zoom")) 100
  images := images
  imageCount := images.length
  postFile := postFile
  jsonFile := jsonFile

/-- Per-album part of `getAlbums`: given the located post file and descriptor
content, build the aggregate; `none` when the post has no front-matter block
(the album is then skipped / not found). -/
def readAlbum (slug : String) (postFile : String) (post : Lines)
    (json : Option JsonArr) : Option Album :=
  (parseFM post).map fun fm =>
    mkAlbum slug fm (normalizeImages json) postFile (slug ++ ".json")

/-! ## Post-file writer `generatePostMarkdown` (`server.js` lines 267-295) -/

/-- Data handed to `generatePostMarkdown`.  String fields keep the dynamic
`FMVal` type: the update route passes `album.title` etc. straight through,
and those can be arrays. -/
structure PostData where
  title : FMVal
  description : FMVal
  developer : FMVal
  date : FMVal
  tags : List String
  slug : String
  cardImage : Int
  cardOffset : Int
  cardOffsetX : Int
  cardZoom : Int
  bannerImage : Int
  bannerOffset : Int
  bannerOffsetX : Int
  bannerZoom : Int

/-- The quoting of lines 273-275: a truthy string is wrapped in double quotes
with inner quotes escaped, a falsy value yields the quoted default; a truthy
array makes `.replace` throw (`none`). -/
def quoteField (v : FMVal) (dflt : String) : Option String :=
  match v with
  | .str s => some (if s = "" then "\"" ++ dflt ++ "\"" else "\"" ++ escQ s ++ "\"")
  | .arr _ => none

/-- Template value `` `${n || d}` `` for the layout integers. -/
def intOrStr (n : Int) (d : Int) : String := jsNumToStr (if n = 0 then d else n)

/-- The `tags:` line (line 270). -/
def tagsLine (tags : List String) : String :=
  if tags.length > 0 then "tags: [" ++ joinSep ", " tags ++ "]"
  else "tags: []"

/-- The generated post content (lines 277-294), as its list of lines; `none`
models the `TypeError` thrown when `.replace` is called on an array value
(caught by the route's handler, surfacing a 500). -/
def generatePostMarkdown (today : String) (d : PostData) : Option Lines := do
  let tq ← quoteField d.title ""
  let dq ← quoteField d.description "Virtual Photography"
  let vq ← quoteField d.developer ""
  pure ["---",
    "layout: post",
    "date: " ++ fmToStr (fmOr (some d.date) (.str today)),
    "title: " ++ tq,
    "description: " ++ dq,
    "developer: " ++ vq,
    "categories: [virtual-photography]",
    tagsLine d.tags,
    "slug: " ++ d.slug,
    "card-image: " ++ intOrStr d.cardImage 0,
    "card-offset: " ++ intOrStr d.cardOffset 50,
    "card-offset-x: " ++ intOrStr d.cardOffsetX 50,
    "card-zoom: " ++ intOrStr d.cardZoom 100,
    "banner-image: " ++ intOrStr d.bannerImage 0,
    "banner-offset: " ++ intOrStr d.bannerOffset 50,
    "banner-offset-x: " ++ intOrStr d.bannerOffsetX 50,
    "banner-zoom: " ++ intOrStr d.bannerZoom 100,
    "---"]

/-! ## Metadata update (`server.js` lines 415-476) -/

/-- Tags field of an update request body: JSON can carry a string or an
array (other types leave the album's tags unchanged, like absence). -/
inductive TagsIn where
  | str (s : String)
  | arr (xs : List String)
  deriving DecidableEq, Repr

/-- Update request body.  `none` models an absent (`undefined`) field; the
layout fields arrive as strings and go through `parseInt`. -/
structure UpdateReq where
  title : Option String := none
  description : Option String := none
  developer : Option String := none
  date : Option String := none
  tags : Option TagsIn := none
  cardImage : Option String := none
  cardOffset : Option String := none
  cardOffsetX : Option String := none
  cardZoom : Option String := none
  bannerImage : Option String := none
  bannerOffset : Option String := none
  bannerOffsetX : Option String := none
  bannerZoom : Option String := none

/-- Merge of one layout field (line 458 and following):
`f !== undefined ? parseInt(f) : album.f`.  A `NaN` result is represented as
`0`: the only consumer is the writer's `` `${v || d}` ``, where `NaN` and `0`
behave identically. -/
def mergeIntField (req : Option String) (cur : Int) : Int :=
  match req with
  | some s => (parseIntJS s).getD 0
  | none => cur

/-- Tag merge of lines 425-432: a string is split on commas, trimmed and
filtered for non-empty entries; an array is taken verbatim. -/
def mergeTags (req : Option TagsIn) (cur : List String) : List String :=
  match req with
  | none => cur
  | some (.str s) => ((splitCommaStr s).map jsTrim).filter (· ≠ "")
  | some (.arr xs) => xs

/-- Core of the update route (lines 434-468): merge the request over the
album, rename the post file when a truthy differing date is given, and
regenerate the content.  Returns the written file name and its content;
`none` models the 500 thrown when the writer crashes on an array value. -/
def updateAlbumMetadata (today : String) (a : Album) (r : UpdateReq) :
    Option (String × Lines) :=
  let newDate : FMVal :=
    match r.date with
    | some d => if d ≠ "" then .str d else a.date
    | none => a.date
  let newName : String :=
    match r.date with
    | some d => if d ≠ "" && (FMVal.str d ≠ a.date) then d ++ "-" ++ a.slug ++ ".md"
                else a.postFile
    | none => a.postFile
  let data : PostData := {
    title := match r.title with
             | some t => if t ≠ "" then .str t else a.title
             | none => a.title
    description := match r.description with
                   | some s => .str s
                   | none => a.description
    developer := match r.developer with
                 | some s => .str s
                 | none => a.developer
    date := newDate
    tags := mergeTags r.tags a.tags
    slug := a.slug
    cardImage := mergeIntField r.cardImage a.cardImage
    cardOffset := mergeIntField r.cardOffset a.cardOffset
    cardOffsetX := mergeIntField r.cardOffsetX a.cardOffsetX
    cardZoom := mergeIntField r.cardZoom a.cardZoom
    bannerImage := mergeIntField r.bannerImage a.bannerImage
    bannerOffset := mergeIntField r.bannerOffset a.bannerOffset
    bannerOffsetX := mergeIntField r.bannerOffsetX a.bannerOffsetX
    bannerZoom := mergeIntField r.bannerZoom a.bannerZoom }
  (generatePostMarkdown today data).map fun ls => (newName, ls)

/-- End-to-end update round trip: read the album from the stored post and
descriptor, run the update, and re-read the aggregate from the rewritten
post file (the descriptor file is not touched by this route). -/
def updateThenRead (today slug postFile : String) (post : Lines)
    (json : Option JsonArr) (r : UpdateReq) : Option Album :=
  (readAlbum slug postFile post json).bind fun a =>
    (updateAlbumMetadata today a r).bind fun p => readAlbum slug p.1 p.2 json

/-- Content written by the update route for a stored post file (used to state
what happens to the Markdown body). -/
def updateThenContent (today slug postFile : String) (post : Lines)
    (json : Option JsonArr) (r : UpdateReq) : Option Lines :=
  (readAlbum slug postFile post json).bind fun a => (updateAlbumMetadata today a r).map (·.2)

/-! ## Remote storage configuration (`server.js` lines 133-138) -/

/-- The parts of `.b2-config.json` that `getCdnUrl` consults. -/
structure B2Config where
  use_cdn : Bool
  cdn_domain : Option String
  bucket_name : String

/-- Public URL of a stored blob (lines 133-138): CDN domain when configured
and truthy, otherwise the bucket's backblaze URL. -/
def getCdnUrl (c : B2Config) (filePath : String) : String :=
  match c.cdn_domain with
  | some d =>
    if c.use_cdn && d ≠ "" then "https://" ++ d ++ "/" ++ filePath
    else "https://f003.backblazeb2.com/file/" ++ c.bucket_name ++ "/" ++ filePath
  | none => "https://f003.backblazeb2.com/file/" ++ c.bucket_name ++ "/" ++ filePath

/-! ## Album creation (`server.js` lines 315-403) -/

/-- One submitted file together with the outcomes of the external calls made
for it (image decoding, JPEG re-encoding, the two uploads, thumbnail
generation). `meta = none` models `sharp(...).metadata()` throwing. -/
structure FileIn where
  mimetype : String
  meta : Option (Nat × Nat)
  convertOk : Bool := true
  uploadOrigOk : Bool := true
  thumbOk : Bool := true
  uploadThumbOk : Bool := true
  deriving DecidableEq, Repr

/-- Local persistence state plus the record of successful remote uploads.
File maps are association lists keyed by file name. -/
structure AdminSt where
  dataFiles : List (String × JsonArr)
  postFiles : List (String × Lines)
  uploaded : List String
  deriving DecidableEq, Repr

/-- Association-list lookup (first match; file names are unique keys). -/
def lookupA {α : Type} : List (String × α) → String → Option α
  | [], _ => none
  | (k, v) :: rest, key => if k = key then some v else lookupA rest key

/-- Association-list overwrite, modelling `fs.writeFileSync`. -/
def setA {α : Type} : List (String × α) → String → α → List (String × α)
  | [], key, v => [(key, v)]
  | (k, w) :: rest, key, v =>
    if k = key then (k, v) :: rest else (k, w) :: setA rest key v

/-- `Math.round((width / height) * 10000) / 10000` of lines 337/499 in exact
rational arithmetic (`Math.round x = ⌊x + 1/2⌋`; `height = 0`, which would be
JS `Infinity`, does not occur for decoded images). -/
def jsAspect (w h : Nat) : ℚ :=
  ((⌊(w : ℚ) / (h : ℚ) * 10000 + 1/2⌋ : Int) : ℚ) / 10000

/-- Remote object name of a full image (line 340). -/
def origName (slug : String) (i : Nat) : String :=
  slug ++ "/img" ++ pad3 i ++ ".jpg"

/-- Remote object name of a thumbnail (line 358). -/
def thumbName (slug : String) (i : Nat) : String :=
  slug ++ "/thumb/img" ++ pad3 i ++ ".webp"

/-- Sequential processing of the submitted files (lines 331-368): for each
file in order, decode, re-encode when not JPEG, upload the original, build
and upload the thumbnail.  Returns the names successfully uploaded (in
order) and the image records, `none` in place of the records when some step
threw — everything uploaded before the failure stays uploaded. -/
def processFiles (cfg : B2Config) (slug : String) :
    List FileIn → Nat → List String × Option (List Image)
  | [], _ => ([], some [])
  | f :: fs, i =>
    match f.meta with
    | none => ([], none)
    | some (w, h) =>
      if (f.mimetype != "image/jpeg") && !f.convertOk then ([], none)
      else if !f.uploadOrigOk then ([], none)
      else if !f.thumbOk then ([origName slug i], none)
      else if !f.uploadThumbOk then ([origName slug i], none)
      else
        let img : Image := {
          url := getCdnUrl cfg (origName slug i)
          thumb := getCdnUrl cfg (thumbName slug i)
          aspectRatio := jsAspect w h
          width := (w : ℚ)
          height := (h : ℚ) }
        let (ups, rest) := processFiles cfg slug fs (i + 1)
        (origName slug i :: thumbName slug i :: ups, rest.map (img :: ·))

/-- Create request: the submitted form fields and files (absent text fields
behave like `""` under the truthiness checks applied to them). -/
structure CreateReq where
  title : String
  developer : String := ""
  description : String := ""
  date : String := ""
  files : List FileIn := []

/-- Responses of the create route. -/
inductive CreateResp where
  | success (slug : String)
  | conflict
  | serverError
  deriving DecidableEq, Repr

/-- Current-format descriptor entry written for a processed image
(`JSON.stringify(images)` at line 371). -/
def toRaw (img : Image) : RawImage where
  url := some img.url
  thumb := some img.thumb
  aspectRatio := some img.aspectRatio
  width := some img.width
  height := some img.height

/-- The create route (lines 315-403).  `slugOf` is the external `slugify`
adapter of `createSlug`; `today` is `new Date().toISOString().split('T')[0]`.
The slug-collision check precedes all processing; the two local writes
happen only after every upload succeeded; any processing failure surfaces as
a 500 with no local write. -/
def createAlbum (cfg : B2Config) (slugOf : String → String) (today : String)
    (st : AdminSt) (r : CreateReq) : CreateResp × AdminSt :=
  let slug := slugOf r.title
  let actualDate := if r.date ≠ "" then r.date else today
  if (lookupA st.dataFiles (slug ++ ".json")).isSome then (.conflict, st)
  else
    match processFiles cfg slug r.files 0 with
    | (ups, none) => (.serverError, { st with uploaded := st.uploaded ++ ups })
    | (ups, some images) =>
      let content := generatePostMarkdown today {
        title := .str r.title
        description := .str r.description
        developer := .str r.developer
        date := .str actualDate
        tags := []
        slug := slug
        cardImage := 0, cardOffset := 50, cardOffsetX := 50, cardZoom := 100
        bannerImage := 0, bannerOffset := 50, bannerOffsetX := 50, bannerZoom := 100 }
      match content with
      | none => (.serverError, { st with uploaded := st.uploaded ++ ups })
      | some ls =>
        (.success slug,
          { dataFiles := setA st.dataFiles (slug ++ ".json") (images.map (some ∘ toRaw))
            postFiles := setA st.postFiles (actualDate ++ "-" ++ slug ++ ".md") ls
            uploaded := st.uploaded ++ ups })

/-! ## Image deletion (`server.js` lines 547-588) -/

/-- Pathname of `new URL(s)` for the `scheme://host/path`-shaped URLs that
occur here: the part from the first `/` after the authority (or `/` when
there is none); `none` models the `TypeError` thrown on a string that has no
`scheme://host` shape (that throw happens outside the route's inner `try`,
so it surfaces as a 500 and prevents the descriptor write). -/
def urlPathname (s : String) : Option String :=
  match findSub [':', '/', '/'] s.data with
  | none => none
  | some (scheme, tail) =>
    if scheme = [] then none
    else
      match findSub ['/'] tail with
      | none => if tail = [] then none else some "/"
      | some (host, path) =>
        if host = [] then none else some (.mk ('/' :: path))

/-- Responses of the delete-image route. -/
inductive DeleteResp where
  | notFound
  | invalidIndex
  | serverError
  | ok
  deriving DecidableEq, Repr

/-- `album.images.filter((_, i) => i !== index)` from line 578: positional
filter against a JS number index. -/
def removeAt (l : List Image) (k : Int) : List Image :=
  ((l.enum.filter fun p => ((p.1 : Int) ≠ k)).map (·.2))

/-- The delete-image route for an existing album (lines 554-582): the bounds
check `index < 0 || index >= album.images.length` rejects with a 400 before
anything else; the remote deletions are inside their own `try` and cannot
abort the descriptor write; the post file is never touched. -/
def deleteImage (a : Album) (k : Int) (st : AdminSt) : DeleteResp × AdminSt :=
  if k < 0 || k ≥ (a.images.length : Int) then (.invalidIndex, st)
  else
    match a.images[k.toNat]? with
    | none => (.serverError, st)
    | some img =>
      match urlPathname img.url, urlPathname img.thumb with
      | some _, some _ =>
        let newArr := (removeAt a.images k).map (some ∘ toRaw)
        (.ok, { st with dataFiles := setA st.dataFiles a.jsonFile newArr })
      | _, _ => (.serverError, st)

/-! ## Image reordering (`server.js` lines 629-654) -/

/-- `order.map(i => album.images[i])` from line 642: an out-of-range index
yields `undefined`, which `JSON.stringify` writes as `null` (`none`). -/
def reorderPick (images : List Image) (i : Int) : Option Image :=
  if h : 0 ≤ i ∧ i.toNat < images.length then some images[i.toNat] else none

/-- The reorder route for an existing album (lines 636-647): no range or
permutation validation happens; the rebuilt list is written verbatim. -/
def reorderImages (a : Album) (order : List Int) (st : AdminSt) : AdminSt :=
  let newArr := (order.map (reorderPick a.images)).map (Option.map toRaw)
  { st with dataFiles := setA st.dataFiles a.jsonFile newArr }

/-! ## Album listing order (`server.js` lines 229-246) -/

/-- Strict `YYYY-MM-DD` date parse, as an order-preserving integer;
`new Date(s)` comparison on such strings is equivalent, and an invalid date
(`NaN` timestamp) is `none`.  Leap years follow the Gregorian rule. -/
def parseDateISO (s : String) : Option Int :=
  match s.data with
  | [y1, y2, y3, y4, '-', m1, m2, '-', d1, d2] =>
    if (isDigitC y1 && isDigitC y2 && isDigitC y3 && isDigitC y4 &&
        isDigitC m1 && isDigitC m2 && isDigitC d1 && isDigitC d2) then
      let y := digitsToNat [y1, y2, y3, y4]
      let m := digitsToNat [m1, m2]
      let d := digitsToNat [d1, d2]
      let maxD : Nat :=
        if m = 1 || m = 3 || m = 5 || m = 7 || m = 8 || m = 10 || m = 12 then 31
        else if m = 4 || m = 6 || m = 9 || m = 11 then 30
        else if y % 4 = 0 && (y % 100 ≠ 0 || y % 400 = 0) then 29
        else 28
      if 1 ≤ m && m ≤ 12 && 1 ≤ d && d ≤ maxD then
        some ((y : Int) * 10000 + (m : Int) * 100 + (d : Int))
      else none
    else none
  | _ => none

/-- `new Date(b.date) - new Date(a.date)` from lines 241/245: descending
date order; a `NaN` on either side makes the comparator return `NaN`, which
`Array.prototype.sort` treats as `0`. -/
def dateCmpJS (a b : Album) : Int :=
  match parseDateISO (fmToStr b.date), parseDateISO (fmToStr a.date) with
  | some x, some y => x - y
  | _, _ => 0

/-- The manual-order comparator of lines 232-242. -/
def albumCmp (order : List String) (a b : Album) : Int :=
  let ai := jsIndexOf order a.slug
  let bi := jsIndexOf order b.slug
  if ai ≥ 0 && bi ≥ 0 then ai - bi
  else if ai ≥ 0 then -1
  else if bi ≥ 0 then 1
  else dateCmpJS a b

/-- Stable insertion of one element behind all existing entries that do not
compare strictly greater (the unique stable-sort placement). -/
def insertCmp (cmp : Album → Album → Int) (a : Album) : List Album → List Album
  | [] => [a]
  | b :: bs => if cmp a b < 0 then a :: b :: bs else b :: insertCmp cmp a bs

/-- `albums.sort(comparator)`: ECMAScript sort is stable, modelled as stable
insertion sort. -/
def jsSort (cmp : Album → Album → Int) (l : List Album) : List Album :=
  l.foldl (fun acc x => insertCmp cmp x acc) []

/-- The sorting step of `getAlbums` (lines 229-246): with a non-empty manual
order the manual comparator is used, otherwise pure descending date.  The
`order` argument is `getAlbumOrder()`, the stored slug sequence with `null`
entries filtered out. -/
def sortAlbums (order : List String) (albums : List Album) : List Album :=
  if order.length > 0 then jsSort (albumCmp order) albums
  else jsSort dateCmpJS albums

/-- Well-behavedness of one album under the manual-order comparator: it is
either manually ordered or carries a valid date.  On albums outside this set
the comparator's `NaN`-as-equal behaviour is not transitive, and ECMAScript
leaves the sort result implementation-defined. -/
def albumOrderP (order : List String) (a : Album) : Prop :=
  jsIndexOf order a.slug ≥ 0 ∨ (parseDateISO (fmToStr a.date)).isSome

/-! ## General helper lemmas -/

theorem lookupA_setA_self {α : Type} (m : List (String × α)) (k : String) (v : α) :
    lookupA (setA m k v) k = some v := by
  induction m with
  | nil => simp [setA, lookupA]
  | cons p rest ih =>
    by_cases h : p.1 = k
    · simp [setA, lookupA, h]
    · simpa [setA, lookupA, h] using ih

theorem lookupA_setA_other {α : Type} (m : List (String × α)) (k k' : String) (v : α)
    (h : k' ≠ k) : lookupA (setA m k v) k' = lookupA m k' := by
  induction m with
  | nil =>
    have : ¬k = k' := fun hh => h hh.symm
    simp [setA, lookupA, this]
  | cons p rest ih =>
    by_cases hp : p.1 = k
    · subst hp
      have : ¬p.1 = k' := fun hh => h hh.symm
      simp [setA, lookupA, this]
    · simp only [setA, hp, if_false, lookupA]
      split <;> simp_all [lookupA]

/-! ## Claim C10: a stored 0 in the offset/zoom fields reads back as the default -/

/-- C10: the front-matter reader cannot represent a stored zero in the
offset/zoom layout fields — when the front matter stores the literal value
`0` for `card-offset`, `card-offset-x`, `card-zoom`, `banner-offset`,
`banner-offset-x` or `banner-zoom`, the assembled album carries the default
(50 for offsets, 100 for zooms) instead of 0, because `parseInt(...) || d`
replaces a falsy parse result by the default (`server.js` lines 212-219;
`getAlbums` returns exactly these `mkAlbum` aggregates). -/
theorem stored_zero_layout_reads_as_default (slug pf jf : String)
    (fm : List (String × FMVal)) (imgs : List Image) :
    (fmLookup fm "card-offset" = some (.str "0") →
      (mkAlbum slug fm imgs pf jf).cardOffset = 50)
    ∧ (fmLookup fm "card-offset-x" = some (.str "0") →
      (mkAlbum slug fm imgs pf jf).cardOffsetX = 50)
    ∧ (fmLookup fm "card-zoom" = some (.str "0") →
      (mkAlbum slug fm imgs pf jf).cardZoom = 100)
    ∧ (fmLookup fm "banner-offset" = some (.str "0") →
      (mkAlbum slug fm imgs pf jf).bannerOffset = 50)
    ∧ (fmLookup fm "banner-offset-x" = some (.str "0") →
      (mkAlbum slug fm imgs pf jf).bannerOffsetX = 50)
    ∧ (fmLookup fm "banner-zoom" = some (.str "0") →
      (mkAlbum slug fm imgs pf jf).bannerZoom = 100) := by
  refine ⟨fun h => ?_, fun h => ?_, fun h => ?_, fun h => ?_, fun h => ?_, fun h => ?_⟩ <;>
    · simp only [mkAlbum]
      rw [h]
      decide

/-- Witness for C10 at a concrete front matter storing 0 in all six fields. -/
theorem stored_zero_layout_reads_as_default_witness :
    (mkAlbum "s" [("card-offset", .str "0"), ("card-offset-x", .str "0"),
        ("card-zoom", .str "0"), ("banner-offset", .str "0"),
        ("banner-offset-x", .str "0"), ("banner-zoom", .str "0")] [] "p.md" "s.json").cardOffset = 50
    ∧ (mkAlbum "s" [("card-offset", .str "0"), ("card-offset-x", .str "0"),
        ("card-zoom", .str "0"), ("banner-offset", .str "0"),
        ("banner-offset-x", .str "0"), ("banner-zoom", .str "0")] [] "p.md" "s.json").bannerZoom = 100 := by
  have h := stored_zero_layout_reads_as_default "s" "p.md" "s.json"
    [("card-offset", .str "0"), ("card-offset-x", .str "0"),
     ("card-zoom", .str "0"), ("banner-offset", .str "0"),
     ("banner-offset-x", .str "0"), ("banner-zoom", .str "0")] []
  exact ⟨h.1 (by decide), h.2.2.2.2.2 (by decide)⟩

/-! ## Claim C9: legacy descriptor normalization -/

/-- C9 counterexample: the claim says a legacy entry normalizes with
`aspectRatio` parsed from `aspect-ratio`, but a stored `aspect-ratio` of `0`
is falsy under `img.aspectRatio || img['aspect-ratio'] || 1.5` and comes
back as the default 1.5, not 0 (`server.js` line 187). -/
theorem legacy_normalization_zero_aspect_counterexample :
    (normalizeImage { imageFullLink := some "https://c/s/img000.jpg"
                      thumbnailLink := some "https://c/s/thumb/img000.webp"
                      aspectRatioLegacy := some 0 }).aspectRatio = 3/2
    ∧ ((3 : ℚ)/2 ≠ 0) := by
  constructor
  · simp [normalizeImage, numOr]
  · norm_num

/-- C9 (amended): a legacy-format entry (`imageFull-link` / `thumbnail-link`
/ `aspect-ratio`, current keys absent) normalizes to the current `Image`
shape: `url` and `thumb` take the legacy link values, `aspectRatio` takes a
non-zero stored `aspect-ratio` (zero, like absence, falls back to the 1.5
default), and absent `aspect-ratio` / `width` / `height` default to 1.5 / 0
/ 0 (`server.js` lines 184-190). -/
theorem legacy_normalization (raw : RawImage) (u th : String)
    (hu : raw.url = none) (hth : raw.thumb = none) (har : raw.aspectRatio = none)
    (hlu : raw.imageFullLink = some u) (hlth : raw.thumbnailLink = some th) :
    (normalizeImage raw).url = u ∧ (normalizeImage raw).thumb = th
    ∧ (∀ q : ℚ, raw.aspectRatioLegacy = some q → q ≠ 0 →
        (normalizeImage raw).aspectRatio = q)
    ∧ (raw.aspectRatioLegacy = none → (normalizeImage raw).aspectRatio = 3/2)
    ∧ (raw.width = none → (normalizeImage raw).width = 0)
    ∧ (raw.height = none → (normalizeImage raw).height = 0) := by
  refine ⟨?_, ?_, fun q hq hq0 => ?_, fun h => ?_, fun h => ?_, fun h => ?_⟩
  · by_cases h : u = "" <;> simp [normalizeImage, hu, hlu, strOr, h]
  · by_cases h : th = "" <;> simp [normalizeImage, hth, hlth, strOr, h]
  · simp [normalizeImage, har, hq, numOr, hq0]
  · simp [normalizeImage, har, h, numOr]
  · simp [normalizeImage, h, numOr]
  · simp [normalizeImage, h, numOr]

/-- Witness for the amended C9 at a concrete legacy record. -/
theorem legacy_normalization_witness :
    (normalizeImage { imageFullLink := some "https://c/s/img000.jpg"
                      thumbnailLink := some "https://c/s/thumb/img000.webp"
                      aspectRatioLegacy := some 2 }).url = "https://c/s/img000.jpg"
    ∧ (normalizeImage { imageFullLink := some "https://c/s/img000.jpg"
                        thumbnailLink := some "https://c/s/thumb/img000.webp"
                        aspectRatioLegacy := some 2 }).aspectRatio = 2 := by
  have h := legacy_normalization
    { imageFullLink := some "https://c/s/img000.jpg"
      thumbnailLink := some "https://c/s/thumb/img000.webp"
      aspectRatioLegacy := some 2 }
    "https://c/s/img000.jpg" "https://c/s/thumb/img000.webp"
    rfl rfl rfl rfl rfl
  exact ⟨h.1, h.2.2.1 2 rfl (by norm_num)⟩

/-! ## Claim C7: slug collision on create -/

/-- C7: when the derived slug already has a JSON descriptor, `createAlbum`
fails with `Conflict` (HTTP 400) and the state — descriptor files, Markdown
files and the record of remote uploads — is returned untouched: the
existence check at `server.js` lines 322-325 precedes every upload and
every write, so the existing album's files stay byte-for-byte identical and
no remote upload is attempted. -/
theorem create_conflict_leaves_state_untouched (cfg : B2Config)
    (slugOf : String → String) (today : String) (st : AdminSt) (r : CreateReq)
    (j : JsonArr)
    (hex : lookupA st.dataFiles (slugOf r.title ++ ".json") = some j) :
    createAlbum cfg slugOf today st r = (.conflict, st) := by
  simp [createAlbum, hex]

/-- Witness for C7: a concrete state already holding `demo.json`. -/
theorem create_conflict_leaves_state_untouched_witness :
    createAlbum ⟨false, none, "bkt"⟩ (fun _ => "demo") "2024-05-01"
      ⟨[("demo.json", [])], [("2024-01-01-demo.md", ["---", "---"])], []⟩
      { title := "Demo" }
    = (.conflict, ⟨[("demo.json", [])], [("2024-01-01-demo.md", ["---", "---"])], []⟩) := by
  exact create_conflict_leaves_state_untouched ⟨false, none, "bkt"⟩ (fun _ => "demo")
    "2024-05-01" ⟨[("demo.json", [])], [("2024-01-01-demo.md", ["---", "---"])], []⟩
    { title := "Demo" } [] (by decide)

/-! ## Claim C5: reorder rebuilds the list with no validation -/

/-- C5: `reorderImages` rebuilds the image list as
`album.images[order[0]], album.images[order[1]], ...` with no range or
permutation validation (`server.js` line 642): the written descriptor is
exactly the index-map of the order array (out-of-range entries become
`null`); on a 3-image album `[2,0,1]` yields `[images[2], images[0],
images[1]]`, duplicate indices duplicate an image, and omitted indices drop
images. -/
theorem reorder_rebuilds_by_indexing :
    (∀ (a : Album) (order : List Int) (st : AdminSt),
      lookupA (reorderImages a order st).dataFiles a.jsonFile
        = some (order.map fun i => (reorderPick a.images i).map toRaw))
    ∧ (∀ (a : Album) (st : AdminSt) (x y z : Image), a.images = [x, y, z] →
      lookupA (reorderImages a [2, 0, 1] st).dataFiles a.jsonFile
        = some [some (toRaw z), some (toRaw x), some (toRaw y)])
    ∧ (∀ (a : Album) (st : AdminSt) (x y : Image), a.images = [x, y] →
      lookupA (reorderImages a [0, 0, 1] st).dataFiles a.jsonFile
        = some [some (toRaw x), some (toRaw x), some (toRaw y)])
    ∧ (∀ (a : Album) (st : AdminSt) (x y : Image), a.images = [x, y] →
      lookupA (reorderImages a [1] st).dataFiles a.jsonFile
        = some [some (toRaw y)])
    ∧ (∀ (a : Album) (st : AdminSt) (x : Image), a.images = [x] →
      lookupA (reorderImages a [0, 5] st).dataFiles a.jsonFile
        = some [some (toRaw x), none]) := by
  have base : ∀ (a : Album) (order : List Int) (st : AdminSt),
      lookupA (reorderImages a order st).dataFiles a.jsonFile
        = some (order.map fun i => (reorderPick a.images i).map toRaw) := by
    intro a order st
    unfold reorderImages
    rw [lookupA_setA_self, List.map_map]
    rfl
  refine ⟨base, fun a st x y z h => ?_, fun a st x y h => ?_,
    fun a st x y h => ?_, fun a st x h => ?_⟩ <;>
    · rw [base, h]
      simp [reorderPick]

/-! ## Claim C4: delete-image bounds checking and positional removal -/

theorem removeAt_all_kept (l : List Image) (s : Nat) (k : Int) (hk : k < s) :
    ((List.enumFrom s l).filter fun p => decide ((p.1 : Int) ≠ k)).map Prod.snd = l := by
  induction l generalizing s with
  | nil => rfl
  | cons x l ih =>
    rw [List.enumFrom_cons, List.filter_cons_of_pos (by simp; omega), List.map_cons,
      ih (s + 1) (by omega)]

theorem removeAt_shift (l : List Image) (s n : Nat) :
    ((List.enumFrom s l).filter fun p => decide ((p.1 : Int) ≠ ((s + n : Nat) : Int))).map Prod.snd
      = l.eraseIdx n := by
  induction l generalizing s n with
  | nil => simp [List.eraseIdx]
  | cons x l ih =>
    cases n with
    | zero =>
      rw [List.enumFrom_cons, List.filter_cons_of_neg (by simp), List.eraseIdx_cons_zero]
      exact removeAt_all_kept l (s + 1) _ (by push_cast; omega)
    | succ m =>
      rw [List.enumFrom_cons, List.filter_cons_of_pos (by simp; omega), List.map_cons,
        List.eraseIdx_cons_succ]
      have harg : ((s + (m + 1) : Nat) : Int) = (((s + 1) + m : Nat) : Int) := by push_cast; omega
      rw [harg, ih (s + 1) m]

theorem removeAt_eq_eraseIdx (l : List Image) (n : Nat) :
    removeAt l (n : Int) = l.eraseIdx n := by
  unfold removeAt
  have h0 : l.enum = List.enumFrom 0 l := rfl
  have := removeAt_shift l 0 n
  rw [h0]
  simpa using this

/-- C4: for an existing album with image list of length `L` and integer index
`k`: when `k` is out of range (`k < 0` or `k ≥ L`) the route answers with the
out-of-range failure (HTTP 400, `server.js` lines 554-557) and both the
descriptor map and the Markdown map are the untouched state; when
`0 ≤ k < L` (and the stored URLs are parseable, as the data model
guarantees for public URLs), the descriptor is rewritten to the prior list
with exactly position `k` removed: length drops by exactly one, entries
before `k` keep their position, entries after `k` shift down by one, and the
Markdown file is untouched (lines 559-582). -/
theorem delete_image_bounds_and_removal (a : Album) (st : AdminSt) (k : Int) :
    ((k < 0 ∨ (a.images.length : Int) ≤ k) → deleteImage a k st = (.invalidIndex, st))
    ∧ (0 ≤ k → k < (a.images.length : Int) →
      ∀ img, a.images[k.toNat]? = some img →
      (urlPathname img.url).isSome → (urlPathname img.thumb).isSome →
      deleteImage a k st
          = (.ok, ⟨setA st.dataFiles a.jsonFile ((a.images.eraseIdx k.toNat).map (some ∘ toRaw)),
              st.postFiles, st.uploaded⟩)
        ∧ (a.images.eraseIdx k.toNat).length + 1 = a.images.length
        ∧ (∀ j : Nat, (a.images.eraseIdx k.toNat)[j]?
            = if j < k.toNat then a.images[j]? else a.images[j + 1]?)
        ∧ lookupA (setA st.dataFiles a.jsonFile ((a.images.eraseIdx k.toNat).map (some ∘ toRaw)))
            a.jsonFile = some ((a.images.eraseIdx k.toNat).map (some ∘ toRaw))
        ∧ (deleteImage a k st).2.postFiles = st.postFiles) := by
  constructor
  · intro h
    have hb : (k < 0 || k ≥ (a.images.length : Int)) = true := by
      rcases h with h | h <;> simp [h]
    unfold deleteImage
    rw [if_pos hb]
  · intro h0 hk img himg hu ht
    have hb : ¬((k < 0 || k ≥ (a.images.length : Int)) = true) := by
      simp only [Bool.or_eq_true, decide_eq_true_eq]
      push_neg
      constructor <;> omega
    obtain ⟨p1, hp1⟩ := Option.isSome_iff_exists.mp hu
    obtain ⟨p2, hp2⟩ := Option.isSome_iff_exists.mp ht
    have hknat : k = ((k.toNat : Nat) : Int) := by omega
    have hrw : removeAt a.images k = a.images.eraseIdx k.toNat := by
      rw [hknat]
      exact removeAt_eq_eraseIdx a.images k.toNat
    have hres : deleteImage a k st
        = (.ok, ⟨setA st.dataFiles a.jsonFile ((a.images.eraseIdx k.toNat).map (some ∘ toRaw)),
            st.postFiles, st.uploaded⟩) := by
      unfold deleteImage
      rw [if_neg hb, himg]
      simp only [hp1, hp2, hrw]
    refine ⟨hres, ?_, ?_, lookupA_setA_self _ _ _, by rw [hres]⟩
    · rw [List.length_eraseIdx]
      have hlt : k.toNat < a.images.length := by omega
      simp only [hlt, if_true]
      omega
    · intro j
      exact List.getElem?_eraseIdx a.images k.toNat j

/-- Witness for C4: a one-image album; index 5 is rejected with the state
untouched, index 0 removes the only image. -/
theorem delete_image_bounds_and_removal_witness :
    deleteImage ⟨"s", .str "t", .str "d", .str "", .str "2024-01-01", [], 0, 50, 50, 100,
        0, 50, 50, 100, [⟨"https://c/s/img000.jpg", "https://c/s/thumb/img000.webp", 2, 3, 2⟩],
        1, "2024-01-01-s.md", "s.json"⟩ 5 ⟨[], [], []⟩
      = (.invalidIndex, ⟨[], [], []⟩)
    ∧ deleteImage ⟨"s", .str "t", .str "d", .str "", .str "2024-01-01", [], 0, 50, 50, 100,
        0, 50, 50, 100, [⟨"https://c/s/img000.jpg", "https://c/s/thumb/img000.webp", 2, 3, 2⟩],
        1, "2024-01-01-s.md", "s.json"⟩ 0 ⟨[], [], []⟩
      = (.ok, ⟨[("s.json", [])], [], []⟩) := by
  constructor
  · exact (delete_image_bounds_and_removal _ ⟨[], [], []⟩ 5).1 (Or.inr (by norm_num))
  · have h := (delete_image_bounds_and_removal
      ⟨"s", .str "t", .str "d", .str "", .str "2024-01-01", [], 0, 50, 50, 100,
        0, 50, 50, 100, [⟨"https://c/s/img000.jpg", "https://c/s/thumb/img000.webp", 2, 3, 2⟩],
        1, "2024-01-01-s.md", "s.json"⟩ ⟨[], [], []⟩ 0).2
      (by norm_num) (by norm_num)
      ⟨"https://c/s/img000.jpg", "https://c/s/thumb/img000.webp", 2, 3, 2⟩
      rfl (by decide) (by decide)
    exact h.1

/-! ## Claims C1 and C8: creation is atomic; image layout of a new album -/

theorem processFiles_success_uploads (cfg : B2Config) (slug : String) :
    ∀ (files : List FileIn) (start : Nat) (imgs : List Image),
      (processFiles cfg slug files start).2 = some imgs →
      ∀ i, i < files.length →
        origName slug (start + i) ∈ (processFiles cfg slug files start).1
        ∧ thumbName slug (start + i) ∈ (processFiles cfg slug files start).1 := by
  intro files
  induction files with
  | nil => intro start imgs _ i hi; simp at hi
  | cons f fs ih =>
    intro start imgs hs i hi
    rcases hf : f.meta with _ | ⟨w, h⟩
    · simp only [processFiles, hf] at hs
      exact absurd hs (by simp)
    · simp only [processFiles, hf] at hs ⊢
      by_cases h1 : ((f.mimetype != "image/jpeg") && !f.convertOk) = true
      · rw [if_pos h1] at hs; exact absurd hs (by simp)
      · rw [if_neg h1] at hs ⊢
        by_cases h2 : (!f.uploadOrigOk) = true
        · rw [if_pos h2] at hs; exact absurd hs (by simp)
        · rw [if_neg h2] at hs ⊢
          by_cases h3 : (!f.thumbOk) = true
          · rw [if_pos h3] at hs; exact absurd hs (by simp)
          · rw [if_neg h3] at hs ⊢
            by_cases h4 : (!f.uploadThumbOk) = true
            · rw [if_pos h4] at hs; exact absurd hs (by simp)
            · rw [if_neg h4] at hs ⊢
              rcases hpr : processFiles cfg slug fs (start + 1) with ⟨ups, rest⟩
              simp only [hpr] at hs ⊢
              cases i with
              | zero =>
                constructor <;> simp
              | succ j =>
                have hj : j < fs.length := by simpa using hi
                rcases rest with _ | rest'
                · exact absurd hs (by simp)
                · have hmem := ih (start + 1) rest' (by rw [hpr]) j hj
                  rw [hpr] at hmem
                  have harg : start + 1 + j = start + (j + 1) := by omega
                  rw [harg] at hmem
                  exact ⟨by simp [hmem.1], by simp [hmem.2]⟩

theorem string_append_assoc (a b c : String) : a ++ b ++ c = a ++ (b ++ c) := by
  apply String.ext
  simp [String.data_append]

theorem getCdnUrl_has_suffix (cfg : B2Config) (p : String) :
    ∃ pre, getCdnUrl cfg p = pre ++ p := by
  unfold getCdnUrl
  rcases cfg.cdn_domain with _ | d
  · exact ⟨"https://f003.backblazeb2.com/file/" ++ cfg.bucket_name ++ "/", by
      rw [string_append_assoc, string_append_assoc]⟩
  · dsimp only
    by_cases h : (cfg.use_cdn && d ≠ "") = true
    · rw [if_pos h]
      exact ⟨"https://" ++ d ++ "/", by rw [string_append_assoc, string_append_assoc]⟩
    · rw [if_neg h]
      exact ⟨"https://f003.backblazeb2.com/file/" ++ cfg.bucket_name ++ "/", by
        rw [string_append_assoc, string_append_assoc]⟩

theorem processFiles_success_images (cfg : B2Config) (slug : String) :
    ∀ (files : List FileIn) (start : Nat) (imgs : List Image),
      (processFiles cfg slug files start).2 = some imgs →
      imgs.length = files.length
      ∧ ∀ i (h : i < imgs.length),
          (imgs.get ⟨i, h⟩).url = getCdnUrl cfg (origName slug (start + i))
          ∧ (imgs.get ⟨i, h⟩).thumb = getCdnUrl cfg (thumbName slug (start + i)) := by
  intro files
  induction files with
  | nil =>
    intro start imgs hs
    simp only [processFiles] at hs
    obtain rfl : imgs = [] := by simpa using hs.symm
    exact ⟨rfl, fun i h => by simp at h⟩
  | cons f fs ih =>
    intro start imgs hs
    rcases hf : f.meta with _ | ⟨w, h⟩
    · simp only [processFiles, hf] at hs
      exact absurd hs (by simp)
    · simp only [processFiles, hf] at hs
      by_cases h1 : ((f.mimetype != "image/jpeg") && !f.convertOk) = true
      · rw [if_pos h1] at hs; exact absurd hs (by simp)
      · rw [if_neg h1] at hs
        by_cases h2 : (!f.uploadOrigOk) = true
        · rw [if_pos h2] at hs; exact absurd hs (by simp)
        · rw [if_neg h2] at hs
          by_cases h3 : (!f.thumbOk) = true
          · rw [if_pos h3] at hs; exact absurd hs (by simp)
          · rw [if_neg h3] at hs
            by_cases h4 : (!f.uploadThumbOk) = true
            · rw [if_pos h4] at hs; exact absurd hs (by simp)
            · rw [if_neg h4] at hs
              rcases hpr : processFiles cfg slug fs (start + 1) with ⟨ups, rest⟩
              simp only [hpr] at hs
              rcases rest with _ | rest'
              · exact absurd hs (by simp)
              · have himgs : imgs = ⟨getCdnUrl cfg (origName slug start),
                    getCdnUrl cfg (thumbName slug start), jsAspect w h, (w : ℚ), (h : ℚ)⟩
                      :: rest' := by
                  simpa using hs.symm
                have hih := ih (start + 1) rest' (by rw [hpr])
                subst himgs
                refine ⟨by simp [hih.1], ?_⟩
                intro i hi
                cases i with
                | zero => constructor <;> simp
                | succ j =>
                  have hj : j < rest'.length := by simpa using hi
                  have := hih.2 j hj
                  have harg : start + 1 + j = start + (j + 1) := by omega
                  rw [harg] at this
                  exact ⟨this.1, this.2⟩

/-- C1: creation is atomic with respect to local persistence.  With no slug
conflict: if decoding, re-encoding or uploading any submitted file fails,
the route answers with the generic 500 failure and neither the JSON
descriptor nor the Markdown post file is written (`server.js` lines 331-368
run before the writes at 371/391, and a throw jumps to the catch at 399);
when processing succeeds, the two local files are written and every upload
of every file — `imgNNN.jpg` and its thumbnail — has already succeeded and
been recorded. -/
theorem create_atomic_local_persistence (cfg : B2Config) (slugOf : String → String)
    (today : String) (st : AdminSt) (r : CreateReq)
    (hfree : lookupA st.dataFiles (slugOf r.title ++ ".json") = none) :
    ((processFiles cfg (slugOf r.title) r.files 0).2 = none →
      (createAlbum cfg slugOf today st r).1 = .serverError
      ∧ (createAlbum cfg slugOf today st r).2.dataFiles = st.dataFiles
      ∧ (createAlbum cfg slugOf today st r).2.postFiles = st.postFiles)
    ∧ (∀ imgs, (processFiles cfg (slugOf r.title) r.files 0).2 = some imgs →
      (createAlbum cfg slugOf today st r).1 = .success (slugOf r.title)
      ∧ lookupA (createAlbum cfg slugOf today st r).2.dataFiles (slugOf r.title ++ ".json")
          = some (imgs.map (some ∘ toRaw))
      ∧ (∀ i, i < r.files.length →
          origName (slugOf r.title) i ∈ (createAlbum cfg slugOf today st r).2.uploaded
          ∧ thumbName (slugOf r.title) i ∈ (createAlbum cfg slugOf today st r).2.uploaded)) := by
  have hnotsome : (lookupA st.dataFiles (slugOf r.title ++ ".json")).isSome = false := by
    rw [hfree]; rfl
  constructor
  · intro hfail
    rcases hpr : processFiles cfg (slugOf r.title) r.files 0 with ⟨ups, orest⟩
    rw [hpr] at hfail
    simp only at hfail
    subst hfail
    simp only [createAlbum, hnotsome, Bool.false_eq_true, if_false, hpr]
    exact ⟨trivial, trivial, trivial⟩
  · intro imgs hsucc
    rcases hpr : processFiles cfg (slugOf r.title) r.files 0 with ⟨ups, orest⟩
    rw [hpr] at hsucc
    simp only at hsucc
    subst hsucc
    have hmem := processFiles_success_uploads cfg (slugOf r.title) r.files 0 imgs
      (by rw [hpr])
    rw [hpr] at hmem
    obtain ⟨ls, hls⟩ : ∃ ls, generatePostMarkdown today
        { title := .str r.title, description := .str r.description,
          developer := .str r.developer,
          date := .str (if r.date ≠ "" then r.date else today), tags := [],
          slug := slugOf r.title, cardImage := 0, cardOffset := 50, cardOffsetX := 50,
          cardZoom := 100, bannerImage := 0, bannerOffset := 50, bannerOffsetX := 50,
          bannerZoom := 100 } = some ls := ⟨_, rfl⟩
    simp only [createAlbum, hnotsome, Bool.false_eq_true, if_false, hpr, hls]
    refine ⟨trivial, lookupA_setA_self _ _ _, ?_⟩
    intro i hi
    have hm := hmem i hi
    have h0 : (0 : Nat) + i = i := by omega
    rw [h0] at hm
    simp only [List.mem_append]
    exact ⟨Or.inr hm.1, Or.inr hm.2⟩

/-- Witness for C1 at a concrete two-file request whose second upload fails
(failure case) and a concrete one-file request that succeeds (success
case). -/
theorem create_atomic_local_persistence_witness :
    ((processFiles ⟨false, none, "bkt"⟩ "demo"
        [⟨"image/jpeg", some (3, 2), true, true, true, true⟩,
         ⟨"image/jpeg", some (3, 2), true, false, true, true⟩] 0).2 = none →
      (createAlbum ⟨false, none, "bkt"⟩ (fun _ => "demo") "2024-05-01" ⟨[], [], []⟩
        { title := "Demo", files := [⟨"image/jpeg", some (3, 2), true, true, true, true⟩,
            ⟨"image/jpeg", some (3, 2), true, false, true, true⟩] }).1 = .serverError
      ∧ (createAlbum ⟨false, none, "bkt"⟩ (fun _ => "demo") "2024-05-01" ⟨[], [], []⟩
        { title := "Demo", files := [⟨"image/jpeg", some (3, 2), true, true, true, true⟩,
            ⟨"image/jpeg", some (3, 2), true, false, true, true⟩] }).2.dataFiles = []
      ∧ (createAlbum ⟨false, none, "bkt"⟩ (fun _ => "demo") "2024-05-01" ⟨[], [], []⟩
        { title := "Demo", files := [⟨"image/jpeg", some (3, 2), true, true, true, true⟩,
            ⟨"image/jpeg", some (3, 2), true, false, true, true⟩] }).2.postFiles = [])
    ∧ ((processFiles ⟨false, none, "bkt"⟩ "demo"
        [⟨"image/jpeg", some (3, 2), true, true, true, true⟩,
         ⟨"image/jpeg", some (3, 2), true, false, true, true⟩] 0).2 = none) := by
  constructor
  · exact (create_atomic_local_persistence ⟨false, none, "bkt"⟩ (fun _ => "demo")
      "2024-05-01" ⟨[], [], []⟩
      { title := "Demo", files := [⟨"image/jpeg", some (3, 2), true, true, true, true⟩,
          ⟨"image/jpeg", some (3, 2), true, false, true, true⟩] } rfl).1
  · rfl

/-- C8: a successful creation with `N` submitted files yields exactly `N`
image records in the written descriptor (hence `imageCount = N` on re-read,
since `imageCount` is the image-list length), and the `i`-th record is built
from the `i`-th file in submission order: its full-image URL is the public
URL of `{slug}/img{i:03}.jpg` and its thumbnail URL that of
`{slug}/thumb/img{i:03}.webp`, the index zero-padded to three digits
(`server.js` lines 331-371; `pad3` is `String(i).padStart(3, '0')`). -/
theorem create_image_count_and_urls (cfg : B2Config) (slugOf : String → String)
    (today : String) (st : AdminSt) (r : CreateReq)
    (hfree : lookupA st.dataFiles (slugOf r.title ++ ".json") = none)
    (imgs : List Image)
    (hs : (processFiles cfg (slugOf r.title) r.files 0).2 = some imgs) :
    imgs.length = r.files.length
    ∧ lookupA (createAlbum cfg slugOf today st r).2.dataFiles (slugOf r.title ++ ".json")
        = some (imgs.map (some ∘ toRaw))
    ∧ (imgs.map (some ∘ toRaw)).length = r.files.length
    ∧ ∀ i (h : i < imgs.length),
        (imgs.get ⟨i, h⟩).url = getCdnUrl cfg (origName (slugOf r.title) i)
        ∧ (imgs.get ⟨i, h⟩).thumb = getCdnUrl cfg (thumbName (slugOf r.title) i)
        ∧ (∃ pre, (imgs.get ⟨i, h⟩).url
            = pre ++ (slugOf r.title ++ "/img" ++ pad3 i ++ ".jpg"))
        ∧ (∃ pre, (imgs.get ⟨i, h⟩).thumb
            = pre ++ (slugOf r.title ++ "/thumb/img" ++ pad3 i ++ ".webp")) := by
  have hims := processFiles_success_images cfg (slugOf r.title) r.files 0 imgs hs
  have hnotsome : (lookupA st.dataFiles (slugOf r.title ++ ".json")).isSome = false := by
    rw [hfree]; rfl
  have hlen : imgs.length = r.files.length := hims.1
  refine ⟨hlen, ?_, by simpa using hlen, ?_⟩
  · rcases hpr : processFiles cfg (slugOf r.title) r.files 0 with ⟨ups, orest⟩
    rw [hpr] at hs
    simp only at hs
    subst hs
    obtain ⟨ls, hls⟩ : ∃ ls, generatePostMarkdown today
        { title := .str r.title, description := .str r.description,
          developer := .str r.developer,
          date := .str (if r.date ≠ "" then r.date else today), tags := [],
          slug := slugOf r.title, cardImage := 0, cardOffset := 50, cardOffsetX := 50,
          cardZoom := 100, bannerImage := 0, bannerOffset := 50, bannerOffsetX := 50,
          bannerZoom := 100 } = some ls := ⟨_, rfl⟩
    simp only [createAlbum, hnotsome, Bool.false_eq_true, if_false, hpr, hls]
    exact lookupA_setA_self _ _ _
  · intro i hi
    have hu := hims.2 i hi
    have h0 : (0 : Nat) + i = i := by omega
    rw [h0] at hu
    obtain ⟨p1, hp1⟩ := getCdnUrl_has_suffix cfg (origName (slugOf r.title) i)
    obtain ⟨p2, hp2⟩ := getCdnUrl_has_suffix cfg (thumbName (slugOf r.title) i)
    have ho : origName (slugOf r.title) i
        = slugOf r.title ++ "/img" ++ pad3 i ++ ".jpg" := rfl
    have ht : thumbName (slugOf r.title) i
        = slugOf r.title ++ "/thumb/img" ++ pad3 i ++ ".webp" := rfl
    refine ⟨hu.1, hu.2, ⟨p1, ?_⟩, ⟨p2, ?_⟩⟩
    · rw [hu.1, hp1, ho]
    · rw [hu.2, hp2, ht]

/-- Witness for C8: one submitted 3x2 JPEG, default remote URL base. -/
theorem create_image_count_and_urls_witness :
    ([⟨getCdnUrl ⟨false, none, "bkt"⟩ (origName "demo" 0),
       getCdnUrl ⟨false, none, "bkt"⟩ (thumbName "demo" 0), jsAspect 3 2, 3, 2⟩]
        : List Image).length
      = ([⟨"image/jpeg", some (3, 2), true, true, true, true⟩] : List FileIn).length
    ∧ ((([⟨getCdnUrl ⟨false, none, "bkt"⟩ (origName "demo" 0),
       getCdnUrl ⟨false, none, "bkt"⟩ (thumbName "demo" 0), jsAspect 3 2, 3, 2⟩]
        : List Image).get ⟨0, by norm_num⟩).url
      = getCdnUrl ⟨false, none, "bkt"⟩ (origName "demo" 0)) := by
  have h := create_image_count_and_urls ⟨false, none, "bkt"⟩ (fun _ => "demo")
    "2024-05-01" ⟨[], [], []⟩
    { title := "Demo", files := [⟨"image/jpeg", some (3, 2), true, true, true, true⟩] }
    rfl
    [⟨getCdnUrl ⟨false, none, "bkt"⟩ (origName "demo" 0),
      getCdnUrl ⟨false, none, "bkt"⟩ (thumbName "demo" 0), jsAspect 3 2, 3, 2⟩]
    rfl
  exact ⟨h.1, (h.2.2.2 0 (by norm_num)).1⟩

/-- Witness for C5: the `[2,0,1]` reorder of a concrete 3-image album. -/
theorem reorder_rebuilds_by_indexing_witness :
    lookupA (reorderImages ⟨"s", .str "t", .str "d", .str "", .str "2024-01-01", [],
        0, 50, 50, 100, 0, 50, 50, 100,
        [⟨"u0", "t0", 2, 3, 2⟩, ⟨"u1", "t1", 2, 3, 2⟩, ⟨"u2", "t2", 2, 3, 2⟩],
        3, "2024-01-01-s.md", "s.json"⟩ [2, 0, 1] ⟨[], [], []⟩).dataFiles "s.json"
      = some [some (toRaw ⟨"u2", "t2", 2, 3, 2⟩), some (toRaw ⟨"u0", "t0", 2, 3, 2⟩),
          some (toRaw ⟨"u1", "t1", 2, 3, 2⟩)] := by
  exact (reorder_rebuilds_by_indexing).2.1 ⟨"s", .str "t", .str "d", .str "", .str "2024-01-01",
    [], 0, 50, 50, 100, 0, 50, 50, 100,
    [⟨"u0", "t0", 2, 3, 2⟩, ⟨"u1", "t1", 2, 3, 2⟩, ⟨"u2", "t2", 2, 3, 2⟩],
    3, "2024-01-01-s.md", "s.json"⟩ ⟨[], [], []⟩ _ _ _ rfl

/-! ## Claim C6: listing order -/

theorem jsIndexOf_ge_neg_one (l : List String) (s : String) : jsIndexOf l s ≥ -1 := by
  induction l with
  | nil => simp [jsIndexOf]
  | cons a as ih =>
    simp only [jsIndexOf]
    split
    · omega
    · split <;> omega

theorem jsIndexOf_inj (l : List String) (s1 s2 : String)
    (h1 : jsIndexOf l s1 ≥ 0) (heq : jsIndexOf l s1 = jsIndexOf l s2) : s1 = s2 := by
  induction l with
  | nil => simp [jsIndexOf] at h1
  | cons a as ih =>
    have hr1 := jsIndexOf_ge_neg_one as s1
    have hr2 := jsIndexOf_ge_neg_one as s2
    simp only [jsIndexOf] at heq h1
    by_cases ha1 : a = s1 <;> by_cases ha2 : a = s2
    · rw [← ha1, ← ha2]
    · exfalso
      rw [if_pos ha1, if_neg ha2] at heq
      by_cases c2 : jsIndexOf as s2 < 0
      · rw [if_pos c2] at heq; omega
      · rw [if_neg c2] at heq; omega
    · exfalso
      rw [if_neg ha1, if_pos ha2] at heq
      rw [if_neg ha1] at h1
      by_cases c1 : jsIndexOf as s1 < 0
      · rw [if_pos c1] at h1; omega
      · rw [if_neg c1] at heq; omega
    · rw [if_neg ha1, if_neg ha2] at heq
      rw [if_neg ha1] at h1
      by_cases c1 : jsIndexOf as s1 < 0
      · rw [if_pos c1] at h1; omega
      · rw [if_neg c1] at h1 heq
        by_cases c2 : jsIndexOf as s2 < 0
        · rw [if_pos c2] at heq; omega
        · rw [if_neg c2] at heq
          exact ih (by omega) (by omega)

theorem dateCmpJS_skew (a b : Album) : dateCmpJS b a = -(dateCmpJS a b) := by
  unfold dateCmpJS
  rcases hx : parseDateISO (fmToStr a.date) with _ | x <;>
    rcases hy : parseDateISO (fmToStr b.date) with _ | y <;> simp

theorem albumCmp_skew (order : List String) (a b : Album) :
    albumCmp order b a = -(albumCmp order a b) := by
  simp only [albumCmp]
  by_cases ha : jsIndexOf order a.slug ≥ 0 <;> by_cases hb : jsIndexOf order b.slug ≥ 0
  · rw [if_pos (by simp [ha, hb]), if_pos (by simp [ha, hb])]
    omega
  · rw [if_neg (show ¬((decide (jsIndexOf order b.slug ≥ 0)
        && decide (jsIndexOf order a.slug ≥ 0)) = true) by simp [hb]),
      if_neg hb, if_pos ha,
      if_neg (show ¬((decide (jsIndexOf order a.slug ≥ 0)
        && decide (jsIndexOf order b.slug ≥ 0)) = true) by simp [hb]),
      if_pos ha]
    omega
  · rw [if_neg (show ¬((decide (jsIndexOf order b.slug ≥ 0)
        && decide (jsIndexOf order a.slug ≥ 0)) = true) by simp [ha]),
      if_pos hb,
      if_neg (show ¬((decide (jsIndexOf order a.slug ≥ 0)
        && decide (jsIndexOf order b.slug ≥ 0)) = true) by simp [ha]),
      if_neg ha, if_pos hb]
  · rw [if_neg (show ¬((decide (jsIndexOf order b.slug ≥ 0)
        && decide (jsIndexOf order a.slug ≥ 0)) = true) by simp [ha]),
      if_neg hb, if_neg ha,
      if_neg (show ¬((decide (jsIndexOf order a.slug ≥ 0)
        && decide (jsIndexOf order b.slug ≥ 0)) = true) by simp [ha]),
      if_neg ha, if_neg hb]
    exact dateCmpJS_skew a b

theorem albumCmp_in_in (order : List String) (a b : Album)
    (ha : jsIndexOf order a.slug ≥ 0) (hb : jsIndexOf order b.slug ≥ 0) :
    albumCmp order a b = jsIndexOf order a.slug - jsIndexOf order b.slug := by
  simp only [albumCmp]
  rw [if_pos (by simp [ha, hb])]

theorem albumCmp_in_out (order : List String) (a b : Album)
    (ha : jsIndexOf order a.slug ≥ 0) (hb : ¬jsIndexOf order b.slug ≥ 0) :
    albumCmp order a b = -1 := by
  simp only [albumCmp]
  rw [if_neg (by simp [hb]), if_pos ha]

theorem albumCmp_out_in (order : List String) (a b : Album)
    (ha : ¬jsIndexOf order a.slug ≥ 0) (hb : jsIndexOf order b.slug ≥ 0) :
    albumCmp order a b = 1 := by
  simp only [albumCmp]
  rw [if_neg (by simp [ha]), if_neg ha, if_pos hb]

theorem albumCmp_out_out (order : List String) (a b : Album)
    (ha : ¬jsIndexOf order a.slug ≥ 0) (hb : ¬jsIndexOf order b.slug ≥ 0) :
    albumCmp order a b = dateCmpJS a b := by
  simp only [albumCmp]
  rw [if_neg (by simp [ha]), if_neg ha, if_neg hb]

theorem dateCmpJS_eval (a b : Album) (x y : Int)
    (hx : parseDateISO (fmToStr a.date) = some x)
    (hy : parseDateISO (fmToStr b.date) = some y) : dateCmpJS a b = y - x := by
  unfold dateCmpJS
  rw [hx, hy]

theorem albumCmp_trans_P (order : List String) (a b c : Album)
    (hpa : albumOrderP order a) (hpb : albumOrderP order b) (hpc : albumOrderP order c)
    (hab : albumCmp order a b ≤ 0) (hbc : albumCmp order b c ≤ 0) :
    albumCmp order a c ≤ 0 := by
  by_cases hA : jsIndexOf order a.slug ≥ 0
  · by_cases hB : jsIndexOf order b.slug ≥ 0
    · by_cases hC : jsIndexOf order c.slug ≥ 0
      · rw [albumCmp_in_in order a b hA hB] at hab
        rw [albumCmp_in_in order b c hB hC] at hbc
        rw [albumCmp_in_in order a c hA hC]
        omega
      · rw [albumCmp_in_out order a c hA hC]
        omega
    · by_cases hC : jsIndexOf order c.slug ≥ 0
      · rw [albumCmp_out_in order b c hB hC] at hbc
        omega
      · rw [albumCmp_in_out order a c hA hC]
        omega
  · by_cases hB : jsIndexOf order b.slug ≥ 0
    · rw [albumCmp_out_in order a b hA hB] at hab
      omega
    · by_cases hC : jsIndexOf order c.slug ≥ 0
      · rw [albumCmp_out_in order b c hB hC] at hbc
        omega
      · rcases hpa with h | hda
        · exact absurd h hA
        rcases hpb with h | hdb
        · exact absurd h hB
        rcases hpc with h | hdc
        · exact absurd h hC
        obtain ⟨xa, hxa⟩ := Option.isSome_iff_exists.mp hda
        obtain ⟨xb, hxb⟩ := Option.isSome_iff_exists.mp hdb
        obtain ⟨xc, hxc⟩ := Option.isSome_iff_exists.mp hdc
        rw [albumCmp_out_out order a b hA hB, dateCmpJS_eval a b xa xb hxa hxb] at hab
        rw [albumCmp_out_out order b c hB hC, dateCmpJS_eval b c xb xc hxb hxc] at hbc
        rw [albumCmp_out_out order a c hA hC, dateCmpJS_eval a c xa xc hxa hxc]
        omega

theorem insertCmp_perm (cmp : Album → Album → Int) (a : Album) (l : List Album) :
    (insertCmp cmp a l).Perm (a :: l) := by
  induction l with
  | nil => exact List.Perm.refl _
  | cons b bs ih =>
    simp only [insertCmp]
    split
    · exact List.Perm.refl _
    · exact (ih.cons b).trans (List.Perm.swap a b bs)

theorem jsSort_aux_perm (cmp : Album → Album → Int) :
    ∀ (l acc : List Album),
      (List.foldl (fun acc x => insertCmp cmp x acc) acc l).Perm (acc ++ l) := by
  intro l
  induction l with
  | nil => intro acc; simp
  | cons x xs ih =>
    intro acc
    have h1 := ih (insertCmp cmp x acc)
    have h2 : (insertCmp cmp x acc ++ xs).Perm (acc ++ x :: xs) := by
      have hi : (insertCmp cmp x acc).Perm (x :: acc) := insertCmp_perm cmp x acc
      have ha : (insertCmp cmp x acc ++ xs).Perm ((x :: acc) ++ xs) :=
        hi.append_right xs
      have hb : ((x :: acc) ++ xs).Perm (acc ++ x :: xs) := by
        simpa using List.perm_middle.symm
      exact ha.trans hb
    rw [List.foldl_cons]
    exact h1.trans h2

theorem jsSort_perm (cmp : Album → Album → Int) (l : List Album) :
    (jsSort cmp l).Perm l := by
  simpa using jsSort_aux_perm cmp l []

theorem insertCmp_pairwise (cmp : Album → Album → Int) (P : Album → Prop)
    (hskew : ∀ x y, cmp y x = -(cmp x y))
    (htr : ∀ x y z, P x → P y → P z → cmp x y ≤ 0 → cmp y z ≤ 0 → cmp x z ≤ 0)
    (a : Album) (l : List Album) (hpa : P a) (hpl : ∀ x ∈ l, P x)
    (hs : l.Pairwise (fun x y => cmp x y ≤ 0)) :
    (insertCmp cmp a l).Pairwise (fun x y => cmp x y ≤ 0) := by
  induction l with
  | nil => simp [insertCmp]
  | cons b bs ih =>
    rcases List.pairwise_cons.mp hs with ⟨hb, hbs⟩
    simp only [insertCmp]
    by_cases hc : cmp a b < 0
    · rw [if_pos hc]
      refine List.pairwise_cons.mpr ⟨?_, hs⟩
      intro y hy
      rcases List.mem_cons.mp hy with rfl | hy'
      · omega
      · exact htr a b y hpa (hpl b (by simp)) (hpl y (by simp [hy'])) (by omega) (hb y hy')
    · rw [if_neg hc]
      refine List.pairwise_cons.mpr ⟨?_, ?_⟩
      · intro y hy
        rcases List.mem_cons.mp ((insertCmp_perm cmp a bs).mem_iff.mp hy) with rfl | h
        · have := hskew y b
          omega
        · exact hb y h
      · exact ih (fun x hx => hpl x (by simp [hx])) hbs

theorem jsSort_aux_pairwise (cmp : Album → Album → Int) (P : Album → Prop)
    (hskew : ∀ x y, cmp y x = -(cmp x y))
    (htr : ∀ x y z, P x → P y → P z → cmp x y ≤ 0 → cmp y z ≤ 0 → cmp x z ≤ 0) :
    ∀ (l acc : List Album), (∀ x ∈ l, P x) → (∀ x ∈ acc, P x) →
      acc.Pairwise (fun x y => cmp x y ≤ 0) →
      (List.foldl (fun acc x => insertCmp cmp x acc) acc l).Pairwise
        (fun x y => cmp x y ≤ 0) := by
  intro l
  induction l with
  | nil => intro acc _ _ hacc; simpa using hacc
  | cons x xs ih =>
    intro acc hl hacc hsort
    rw [List.foldl_cons]
    refine ih (insertCmp cmp x acc) (fun y hy => hl y (by simp [hy])) ?_ ?_
    · intro y hy
      rcases List.mem_cons.mp ((insertCmp_perm cmp x acc).mem_iff.mp hy) with rfl | h
      · exact hl y (by simp)
      · exact hacc y h
    · exact insertCmp_pairwise cmp P hskew htr x acc (hl x (by simp)) hacc hsort

theorem jsSort_pairwise (cmp : Album → Album → Int) (P : Album → Prop)
    (hskew : ∀ x y, cmp y x = -(cmp x y))
    (htr : ∀ x y z, P x → P y → P z → cmp x y ≤ 0 → cmp y z ≤ 0 → cmp x z ≤ 0)
    (l : List Album) (hpl : ∀ x ∈ l, P x) :
    (jsSort cmp l).Pairwise (fun x y => cmp x y ≤ 0) := by
  exact jsSort_aux_pairwise cmp P hskew htr l [] hpl (by simp) (by simp)

theorem dateCmpJS_trans_isSome (a b c : Album)
    (hda : (parseDateISO (fmToStr a.date)).isSome)
    (hdb : (parseDateISO (fmToStr b.date)).isSome)
    (hdc : (parseDateISO (fmToStr c.date)).isSome)
    (hab : dateCmpJS a b ≤ 0) (hbc : dateCmpJS b c ≤ 0) : dateCmpJS a c ≤ 0 := by
  obtain ⟨xa, hxa⟩ := Option.isSome_iff_exists.mp hda
  obtain ⟨xb, hxb⟩ := Option.isSome_iff_exists.mp hdb
  obtain ⟨xc, hxc⟩ := Option.isSome_iff_exists.mp hdc
  rw [dateCmpJS_eval a b xa xb hxa hxb] at hab
  rw [dateCmpJS_eval b c xb xc hxb hxc] at hbc
  rw [dateCmpJS_eval a c xa xc hxa hxc]
  omega

/-- C6: sorting of `getAlbums` (lines 229-246).  With a non-empty manual
order (albums in-order or validly dated, slugs distinct): the result is a
permutation of the input in which every manually ordered album precedes
every unordered one, ordered albums appear in strictly increasing
order-index (the order's own sequence, regardless of dates), and unordered
albums appear in descending date order.  With no manual order, the result
is a permutation sorted purely by descending date.  Concretely, order
`["b","a"]` over `a` dated 2020-01-01 and `b` dated 2019-01-01 returns
`[b, a]`. -/
theorem listAlbums_sorting :
    (∀ (order : List String) (albums : List Album),
      order ≠ [] →
      (∀ a ∈ albums, albumOrderP order a) →
      albums.Pairwise (fun a b => a.slug ≠ b.slug) →
      (sortAlbums order albums).Perm albums
      ∧ (∀ i j (hi : i < (sortAlbums order albums).length)
            (hj : j < (sortAlbums order albums).length), i < j →
          (jsIndexOf order (sortAlbums order albums)[j].slug ≥ 0 →
              jsIndexOf order (sortAlbums order albums)[i].slug ≥ 0)
          ∧ (jsIndexOf order (sortAlbums order albums)[i].slug ≥ 0 →
             jsIndexOf order (sortAlbums order albums)[j].slug ≥ 0 →
              jsIndexOf order (sortAlbums order albums)[i].slug
                < jsIndexOf order (sortAlbums order albums)[j].slug)
          ∧ (¬jsIndexOf order (sortAlbums order albums)[i].slug ≥ 0 →
             ¬jsIndexOf order (sortAlbums order albums)[j].slug ≥ 0 →
             ∀ x y,
               parseDateISO (fmToStr (sortAlbums order albums)[i].date) = some x →
               parseDateISO (fmToStr (sortAlbums order albums)[j].date) = some y →
               y ≤ x)))
    ∧ (∀ albums : List Album,
        (∀ a ∈ albums, (parseDateISO (fmToStr a.date)).isSome) →
        (sortAlbums [] albums).Perm albums
        ∧ (∀ i j (hi : i < (sortAlbums [] albums).length)
              (hj : j < (sortAlbums [] albums).length), i < j →
            ∀ x y, parseDateISO (fmToStr (sortAlbums [] albums)[i].date) = some x →
              parseDateISO (fmToStr (sortAlbums [] albums)[j].date) = some y →
              y ≤ x))
    ∧ sortAlbums ["b", "a"]
        [⟨"a", .str "A", .str "d", .str "", .str "2020-01-01", [], 0, 50, 50, 100,
            0, 50, 50, 100, [], 0, "2020-01-01-a.md", "a.json"⟩,
         ⟨"b", .str "B", .str "d", .str "", .str "2019-01-01", [], 0, 50, 50, 100,
            0, 50, 50, 100, [], 0, "2019-01-01-b.md", "b.json"⟩]
      = [⟨"b", .str "B", .str "d", .str "", .str "2019-01-01", [], 0, 50, 50, 100,
            0, 50, 50, 100, [], 0, "2019-01-01-b.md", "b.json"⟩,
         ⟨"a", .str "A", .str "d", .str "", .str "2020-01-01", [], 0, 50, 50, 100,
            0, 50, 50, 100, [], 0, "2020-01-01-a.md", "a.json"⟩] := by
  refine ⟨?_, ?_, by decide⟩
  · intro order albums hord hP hslugs
    have heq : sortAlbums order albums = jsSort (albumCmp order) albums := by
      unfold sortAlbums
      rw [if_pos (by simpa using List.length_pos.mpr hord)]
    have hperm := jsSort_perm (albumCmp order) albums
    have hpw := jsSort_pairwise (albumCmp order) (albumOrderP order)
      (fun x y => albumCmp_skew order x y)
      (fun x y z => albumCmp_trans_P order x y z) albums hP
    simp only [heq]
    refine ⟨hperm, ?_⟩
    intro i j hi hj hij
    have hle : albumCmp order (jsSort (albumCmp order) albums)[i]
        (jsSort (albumCmp order) albums)[j] ≤ 0 :=
      List.pairwise_iff_getElem.mp hpw i j hi hj hij
    refine ⟨?_, ?_, ?_⟩
    · intro hj0
      by_contra hi0
      rw [albumCmp_out_in order _ _ hi0 hj0] at hle
      omega
    · intro hi0 hj0
      rw [albumCmp_in_in order _ _ hi0 hj0] at hle
      have hpw2 : (jsSort (albumCmp order) albums).Pairwise
          (fun a b : Album => a.slug ≠ b.slug) :=
        (hperm.pairwise_iff (fun h => h.symm)).mpr hslugs
      have hne : (jsSort (albumCmp order) albums)[i].slug
          ≠ (jsSort (albumCmp order) albums)[j].slug :=
        List.pairwise_iff_getElem.mp hpw2 i j hi hj hij
      have hnidx : jsIndexOf order (jsSort (albumCmp order) albums)[i].slug
          ≠ jsIndexOf order (jsSort (albumCmp order) albums)[j].slug :=
        fun hcontra => hne (jsIndexOf_inj order _ _ hi0 hcontra)
      omega
    · intro hi0 hj0 x y hx hy
      rw [albumCmp_out_out order _ _ hi0 hj0, dateCmpJS_eval _ _ x y hx hy] at hle
      omega
  · intro albums hdates
    have heq : sortAlbums [] albums = jsSort dateCmpJS albums := by
      unfold sortAlbums
      rw [if_neg (by simp)]
    have hperm := jsSort_perm dateCmpJS albums
    have hpw := jsSort_pairwise dateCmpJS
      (fun a => (parseDateISO (fmToStr a.date)).isSome = true)
      (fun x y => dateCmpJS_skew x y)
      (fun x y z hx hy hz => dateCmpJS_trans_isSome x y z hx hy hz) albums
      (fun a ha => hdates a ha)
    simp only [heq]
    refine ⟨hperm, ?_⟩
    intro i j hi hj hij x y hx hy
    have hle : dateCmpJS (jsSort dateCmpJS albums)[i] (jsSort dateCmpJS albums)[j] ≤ 0 :=
      List.pairwise_iff_getElem.mp hpw i j hi hj hij
    rw [dateCmpJS_eval _ _ x y hx hy] at hle
    omega

/-- Witness for C6: instantiates all three parts at the two concrete albums
of the claim's example. -/
theorem listAlbums_sorting_witness :
    (sortAlbums ["b", "a"]
        [⟨"a", .str "A", .str "d", .str "", .str "2020-01-01", [], 0, 50, 50, 100,
            0, 50, 50, 100, [], 0, "2020-01-01-a.md", "a.json"⟩,
         ⟨"b", .str "B", .str "d", .str "", .str "2019-01-01", [], 0, 50, 50, 100,
            0, 50, 50, 100, [], 0, "2019-01-01-b.md", "b.json"⟩]).Perm
      [⟨"a", .str "A", .str "d", .str "", .str "2020-01-01", [], 0, 50, 50, 100,
            0, 50, 50, 100, [], 0, "2020-01-01-a.md", "a.json"⟩,
       ⟨"b", .str "B", .str "d", .str "", .str "2019-01-01", [], 0, 50, 50, 100,
            0, 50, 50, 100, [], 0, "2019-01-01-b.md", "b.json"⟩] := by
  have h := listAlbums_sorting.1 ["b", "a"]
    [⟨"a", .str "A", .str "d", .str "", .str "2020-01-01", [], 0, 50, 50, 100,
        0, 50, 50, 100, [], 0, "2020-01-01-a.md", "a.json"⟩,
     ⟨"b", .str "B", .str "d", .str "", .str "2019-01-01", [], 0, 50, 50, 100,
        0, 50, 50, 100, [], 0, "2019-01-01-b.md", "b.json"⟩]
    (by simp)
    (by
      intro a ha
      left
      rcases List.mem_cons.mp ha with rfl | ha'
      · decide
      · rcases List.mem_cons.mp ha' with rfl | ha''
        · decide
        · simp at ha'')
    (by
      refine List.pairwise_cons.mpr ⟨?_, ?_⟩
      · intro b hb
        rcases List.mem_cons.mp hb with rfl | hb'
        · decide
        · simp at hb'
      · simp)
  exact h.1

/-! ## Claims C2 and C3: string and front-matter round-trip lemmas -/

theorem digitChar10_digit (d : Nat) : isDigitC (digitChar10 d) = true := by
  rcases d with _|_|_|_|_|_|_|_|_|d <;> rfl

theorem digitChar10_not_ws (d : Nat) : isWS (digitChar10 d) = false := by
  rcases d with _|_|_|_|_|_|_|_|_|d <;> rfl

theorem digitChar10_val (d : Nat) (h : d < 10) : (digitChar10 d).toNat - 48 = d := by
  rcases d with _|_|_|_|_|_|_|_|_|d
  · rfl
  · rfl
  · rfl
  · rfl
  · rfl
  · rfl
  · rfl
  · rfl
  · rfl
  · obtain rfl : d = 0 := by omega
    rfl

theorem trimList_cons_ws (c : Char) (cs : List Char) (h : isWS c = true) :
    trimList (c :: cs) = trimList cs := by
  simp [trimList, List.dropWhile_cons, h]

theorem dropWhile_eq_self_of_all {p : Char → Bool} (cs : List Char)
    (h : ∀ c ∈ cs, p c = false) : cs.dropWhile p = cs := by
  induction cs with
  | nil => rfl
  | cons c cs ih =>
    rw [List.dropWhile_cons, h c (by simp), if_neg (by simp)]

theorem trimList_of_all_nonws (cs : List Char) (h : ∀ c ∈ cs, isWS c = false) :
    trimList cs = cs := by
  unfold trimList
  rw [dropWhile_eq_self_of_all cs h,
    dropWhile_eq_self_of_all cs.reverse (fun c hc => h c (List.mem_reverse.mp hc)),
    List.reverse_reverse]

theorem trimList_wrap (c1 c2 : Char) (mid : List Char)
    (h1 : isWS c1 = false) (h2 : isWS c2 = false) :
    trimList (c1 :: (mid ++ [c2])) = c1 :: (mid ++ [c2]) := by
  unfold trimList
  rw [List.dropWhile_cons, h1, if_neg (by simp)]
  have hrev : (c1 :: (mid ++ [c2])).reverse = c2 :: (mid.reverse ++ [c1]) := by simp
  rw [hrev, List.dropWhile_cons, h2, if_neg (by simp), ← hrev, List.reverse_reverse]

theorem flatMap_esc_id (cs : List Char) (h : ∀ c ∈ cs, c ≠ '"') :
    (cs.flatMap fun c => if c = '"' then ['\\', c] else [c]) = cs := by
  induction cs with
  | nil => rfl
  | cons c cs ih =>
    rw [List.flatMap_cons, if_neg (h c (by simp)), ih (fun d hd => h d (by simp [hd]))]
    rfl

theorem escQ_id (s : String) (h : ∀ c ∈ s.data, c ≠ '"') : escQ s = s := by
  apply String.ext
  exact flatMap_esc_id s.data h

theorem keySpan_key (k : List Char) (rest : List Char)
    (hk : ∀ c ∈ k, isWordChar c = true) :
    keySpan (k ++ ':' :: rest) = some (k, rest) := by
  induction k with
  | nil => simp [keySpan]
  | cons c k ih =>
    have hc : isWordChar c = true := hk c (by simp)
    have hcne : ¬c = ':' := by
      intro h
      rw [h] at hc
      exact absurd hc (by decide)
    rw [List.cons_append, keySpan, if_neg hcne, if_pos hc,
      ih (fun d hd => hk d (by simp [hd]))]
    rfl

theorem data_keyval (k v : String) : (k ++ ": " ++ v).data = k.data ++ ':' :: ' ' :: v.data := by
  rw [String.data_append, String.data_append]
  show k.data ++ [':', ' '] ++ v.data = _
  simp

theorem lineKV_keyval (k v : String) (hk : ∀ c ∈ k.data, isWordChar c = true) :
    lineKV (k ++ ": " ++ v) = some (k, procValue (jsTrim v)) := by
  unfold lineKV
  rw [data_keyval, keySpan_key k.data (' ' :: v.data) hk]
  show some (String.mk k.data, procValue (.mk (trimList (' ' :: v.data))))
      = some (k, procValue (jsTrim v))
  rw [trimList_cons_ws ' ' v.data (by decide)]
  rfl

theorem splitComma_ne_nil (cs : List Char) : splitComma cs ≠ [] := by
  induction cs with
  | nil => simp [splitComma]
  | cons c cs ih =>
    rw [splitComma]
    split
    · simp
    · rcases h : splitComma cs with _ | ⟨x, xs⟩
      · simp
      · simp [h]

theorem splitComma_no_comma (cs : List Char) (h : ∀ c ∈ cs, c ≠ ',') :
    splitComma cs = [cs] := by
  induction cs with
  | nil => rfl
  | cons c cs ih =>
    rw [splitComma, if_neg (h c (by simp)), ih (fun d hd => h d (by simp [hd]))]

theorem splitComma_append (a b : List Char) (ha : ∀ c ∈ a, c ≠ ',') :
    splitComma (a ++ ',' :: b) = a :: splitComma b := by
  induction a with
  | nil => simp [splitComma]
  | cons c a ih =>
    rw [List.cons_append, splitComma, if_neg (ha c (by simp)),
      ih (fun d hd => ha d (by simp [hd]))]

theorem splitComma_cons_space (cs : List Char) :
    ∃ h rest, splitComma cs = h :: rest ∧ splitComma (' ' :: cs) = (' ' :: h) :: rest := by
  rcases hs : splitComma cs with _ | ⟨h, rest⟩
  · exact absurd hs (splitComma_ne_nil cs)
  · refine ⟨h, rest, rfl, ?_⟩
    rw [splitComma, if_neg (by decide), hs]

theorem tags_roundtrip (ts : List String) (hne : ts ≠ [])
    (hgood : ∀ t ∈ ts, (∀ c ∈ t.data, c ≠ ',') ∧ jsTrim t = t) :
    (splitCommaStr (joinSep ", " ts)).map jsTrim = ts := by
  induction ts with
  | nil => exact absurd rfl hne
  | cons t ts ih =>
    rcases hts : ts with _ | ⟨t2, ts'⟩
    · show (splitCommaStr (joinSep ", " [t])).map jsTrim = [t]
      have hj : joinSep ", " [t] = .mk t.data := rfl
      rw [hj]
      show ((splitComma t.data).map String.mk).map jsTrim = [t]
      rw [splitComma_no_comma t.data (hgood t (by simp)).1]
      show [jsTrim (.mk t.data)] = [t]
      have := (hgood t (by simp)).2
      simp_all [jsTrim]
    · rw [← hts]
      have hts_ne : ts ≠ [] := by rw [hts]; simp
      have hjoin : (joinSep ", " (t :: ts)).data
          = t.data ++ ',' :: ' ' :: (joinSep ", " ts).data := by
      
        show joinSepC [',', ' '] ((t :: ts).map String.data)
            = t.data ++ ',' :: ' ' :: joinSepC [',', ' '] (ts.map String.data)
        rw [hts]
        show t.data ++ [',', ' '] ++ joinSepC [',', ' '] ((t2 :: ts').map String.data) = _
        simp
      show ((splitComma (joinSep ", " (t :: ts)).data).map String.mk).map jsTrim = t :: ts
      rw [hjoin, splitComma_append t.data _ (hgood t (by simp)).1]
      obtain ⟨h, rest, hsplit, hsplit2⟩ := splitComma_cons_space (joinSep ", " ts).data
      rw [hsplit2]
      have hih := ih hts_ne (fun s hs => hgood s (by simp [hs]))
      rw [show splitCommaStr (joinSep ", " ts) = (splitComma (joinSep ", " ts).data).map .mk
          from rfl, hsplit] at hih
      simp only [List.map_cons] at hih ⊢
      refine congrArg₂ _ ?_ ?_
      · have := (hgood t (by simp)).2
        simp_all [jsTrim]
      · have hsp : jsTrim (String.mk (' ' :: h)) = jsTrim (.mk h) := by
          show String.mk (trimList (' ' :: h)) = String.mk (trimList h)
          rw [trimList_cons_ws ' ' h (by decide)]
        rw [hsp]
        exact hih

theorem procValue_plain (v : String) (hq : strQuoteWrapped v = false)
    (hb : strBracketed v = false) : procValue v = .str v := by
  unfold procValue
  rw [hq]
  simp only [Bool.false_eq_true, if_false]
  rw [hb]
  simp

theorem procValue_quoted (mid : String) (hb : strBracketed mid = false) :
    procValue (.mk ('"' :: (mid.data ++ ['"']))) = .str mid := by
  have hq : strQuoteWrapped (.mk ('"' :: (mid.data ++ ['"']))) = true := by
    unfold strQuoteWrapped startsC endsC
    rw [show ('"' :: (mid.data ++ ['"'])).getLast? = some '"' from by
      rw [show ('"' :: (mid.data ++ ['"'])) = ('"' :: mid.data) ++ ['"'] from by simp]
      exact List.getLast?_concat _]
    simp
  have hslice : sliceEnds (.mk ('"' :: (mid.data ++ ['"']))) = mid := by
    unfold sliceEnds
    show String.mk ((mid.data ++ ['"']).dropLast) = mid
    rw [List.dropLast_concat]
  unfold procValue
  rw [hq, if_pos rfl, hslice]
  simp only [hb, Bool.false_eq_true, if_false]

theorem procValue_bracketed (inner : String) :
    procValue (.mk ('[' :: (inner.data ++ [']']))) = .arr ((splitCommaStr inner).map jsTrim) := by
  have hq : strQuoteWrapped (.mk ('[' :: (inner.data ++ [']']))) = false := by
    unfold strQuoteWrapped startsC
    simp
  have hbr : strBracketed (.mk ('[' :: (inner.data ++ [']']))) = true := by
    unfold strBracketed startsC endsC
    rw [show ('[' :: (inner.data ++ [']'])).getLast? = some ']' from by
      rw [show ('[' :: (inner.data ++ [']'])) = ('[' :: inner.data) ++ [']'] from by simp]
      exact List.getLast?_concat _]
    simp
  have hslice : sliceEnds (.mk ('[' :: (inner.data ++ [']']))) = inner := by
    unfold sliceEnds
    show String.mk ((inner.data ++ [']']).dropLast) = inner
    rw [List.dropLast_concat]
  unfold procValue
  rw [hq]
  simp only [Bool.false_eq_true, if_false]
  rw [hbr, if_pos rfl, hslice]

theorem fmOr_str_ne (s : String) (h : s ≠ "") (d : FMVal) :
    fmOr (some (.str s)) d = .str s := by
  simp [fmOr, FMVal.truthy, h]

theorem fmOr_str_empty (d : FMVal) : fmOr (some (.str "")) d = d := by
  simp [fmOr, FMVal.truthy]

theorem fmOr_arr (xs : List String) (d : FMVal) : fmOr (some (.arr xs)) d = .arr xs := by
  simp [fmOr, FMVal.truthy]

theorem intOr_ne_zero (o : Option Int) (d : Int) (hd : d ≠ 0) : intOr o d ≠ 0 := by
  unfold intOr
  rcases o with _ | n
  · exact hd
  · by_cases hn : n = 0
    · simp only [hn, if_true]
      exact hd
    · simp only [hn, if_false]
      exact hn

theorem digitChar10_ne_special (d : Nat) :
    digitChar10 d ≠ '"' ∧ digitChar10 d ≠ '\'' ∧ digitChar10 d ≠ '['
    ∧ digitChar10 d ≠ 'x' ∧ digitChar10 d ≠ 'X' ∧ digitChar10 d ≠ '-' := by
  rcases d with _|_|_|_|_|_|_|_|_|d
  · decide
  · decide
  · decide
  · decide
  · decide
  · decide
  · decide
  · decide
  · decide
  · exact (by decide : ('9' : Char) ≠ '"' ∧ ('9' : Char) ≠ '\'' ∧ ('9' : Char) ≠ '['
      ∧ ('9' : Char) ≠ 'x' ∧ ('9' : Char) ≠ 'X' ∧ ('9' : Char) ≠ '-')

theorem natCharsAux_congr : ∀ (n f1 f2 : Nat), n < f1 → n < f2 →
    natCharsAux f1 n = natCharsAux f2 n := by
  intro n
  induction n using Nat.strong_induction_on with
  | _ n ih =>
    intro f1 f2 h1 h2
    rcases f1 with _ | f1
    · omega
    rcases f2 with _ | f2
    · omega
    simp only [natCharsAux]
    by_cases hn : n < 10
    · rw [if_pos hn, if_pos hn]
    · rw [if_neg hn, if_neg hn, ih (n / 10) (by omega) f1 f2 (by omega) (by omega)]

theorem natChars_unfold (n : Nat) :
    natChars n = if n < 10 then [digitChar10 n]
      else natChars (n / 10) ++ [digitChar10 (n % 10)] := by
  by_cases hn : n < 10
  · rw [if_pos hn]
    unfold natChars
    simp only [natCharsAux]
    rw [if_pos hn]
  · rw [if_neg hn]
    show natCharsAux (n + 1) n = natCharsAux (n / 10 + 1) (n / 10) ++ [digitChar10 (n % 10)]
    rw [show natCharsAux (n + 1) n = natCharsAux n (n / 10) ++ [digitChar10 (n % 10)] from by
      simp only [natCharsAux]
      rw [if_neg hn]]
    rw [natCharsAux_congr (n / 10) n (n / 10 + 1) (by omega) (by omega)]

theorem natChars_shape : ∀ n : Nat, ∀ c ∈ natChars n, ∃ d, c = digitChar10 d := by
  intro n
  induction n using Nat.strong_induction_on with
  | _ n ih =>
    intro c hc
    rw [natChars_unfold] at hc
    by_cases hn : n < 10
    · rw [if_pos hn] at hc
      exact ⟨n, by simpa using hc⟩
    · rw [if_neg hn] at hc
      rcases List.mem_append.mp hc with h | h
      · exact ih (n / 10) (by omega) c h
      · exact ⟨n % 10, by simpa using h⟩

theorem natChars_all_digits (n : Nat) : ∀ c ∈ natChars n, isDigitC c = true := by
  intro c hc
  obtain ⟨d, rfl⟩ := natChars_shape n c hc
  exact digitChar10_digit d

theorem natChars_all_nonws (n : Nat) : ∀ c ∈ natChars n, isWS c = false := by
  intro c hc
  obtain ⟨d, rfl⟩ := natChars_shape n c hc
  exact digitChar10_not_ws d

theorem natChars_ne_nil (n : Nat) : natChars n ≠ [] := by
  rw [natChars_unfold]
  by_cases hn : n < 10
  · rw [if_pos hn]; simp
  · rw [if_neg hn]; simp

theorem digitsToNat_append_one (xs : List Char) (c : Char) :
    digitsToNat (xs ++ [c]) = 10 * digitsToNat xs + (c.toNat - 48) := by
  unfold digitsToNat
  rw [List.foldl_append]
  rfl

theorem natChars_val : ∀ n : Nat, digitsToNat (natChars n) = n := by
  intro n
  induction n using Nat.strong_induction_on with
  | _ n ih =>
    rw [natChars_unfold]
    by_cases hn : n < 10
    · rw [if_pos hn]
      show 10 * 0 + ((digitChar10 n).toNat - 48) = n
      rw [digitChar10_val n hn]
      omega
    · rw [if_neg hn, digitsToNat_append_one, ih (n / 10) (by omega),
        digitChar10_val (n % 10) (by omega)]
      omega

theorem parseNatLead_natChars (n : Nat) : parseNatLead (natChars n) = some n := by
  unfold parseNatLead
  split
  · rename_i x rest heq
    have hx : x ∈ natChars n := by rw [heq]; simp
    obtain ⟨d, rfl⟩ := natChars_shape n x hx
    rw [if_neg (by simp [(digitChar10_ne_special d).2.2.2.1, (digitChar10_ne_special d).2.2.2.2.1])]
    rw [← heq, List.takeWhile_eq_self_iff.mpr (natChars_all_digits n), natChars_val n]
  · rename_i heq
    rw [List.takeWhile_eq_self_iff.mpr (natChars_all_digits n)]
    rw [if_neg (natChars_ne_nil n), natChars_val n]

theorem natChars_head_shape (n : Nat) :
    ∃ d cs, natChars n = digitChar10 d :: cs := by
  rcases h : natChars n with _ | ⟨c, cs⟩
  · exact absurd h (natChars_ne_nil n)
  · have hc : c ∈ natChars n := by rw [h]; simp
    obtain ⟨d, rfl⟩ := natChars_shape n c hc
    exact ⟨d, cs, rfl⟩

theorem intToStr_head_shape (m : Int) :
    (∃ cs, (intToStr m).data = '-' :: cs) ∨ ∃ d cs, (intToStr m).data = digitChar10 d :: cs := by
  unfold intToStr
  by_cases hm : m < 0
  · rw [if_pos hm]
    exact Or.inl ⟨natChars m.natAbs, rfl⟩
  · rw [if_neg hm]
    obtain ⟨d, cs, h⟩ := natChars_head_shape m.natAbs
    exact Or.inr ⟨d, cs, h⟩

theorem intToStr_not_special (m : Int) :
    strQuoteWrapped (intToStr m) = false ∧ strBracketed (intToStr m) = false := by
  rcases intToStr_head_shape m with ⟨cs, h⟩ | ⟨d, cs, h⟩
  · unfold strQuoteWrapped strBracketed startsC
    rw [h]
    simp
  · unfold strQuoteWrapped strBracketed startsC
    rw [h]
    have := digitChar10_ne_special d
    simp only [Bool.and_eq_false_iff, Bool.or_eq_false_iff]
    constructor
    · constructor <;> left <;> simp [this.1, this.2.1]
    · left
      simp [this.2.2.1]

theorem intToStr_all_nonws (m : Int) : ∀ c ∈ (intToStr m).data, isWS c = false := by
  intro c hc
  unfold intToStr at hc
  by_cases hm : m < 0
  · rw [if_pos hm] at hc
    rcases List.mem_cons.mp hc with rfl | hc'
    · decide
    · exact natChars_all_nonws m.natAbs c hc'
  · rw [if_neg hm] at hc
    exact natChars_all_nonws m.natAbs c hc

theorem jsTrim_intToStr (m : Int) : jsTrim (intToStr m) = intToStr m := by
  show String.mk (trimList (intToStr m).data) = intToStr m
  rw [trimList_of_all_nonws _ (intToStr_all_nonws m)]

theorem parseIntJS_intToStr (m : Int) : parseIntJS (intToStr m) = some m := by
  by_cases hm : m < 0
  · have hdata : (intToStr m).data = '-' :: natChars m.natAbs := by
      unfold intToStr
      rw [if_pos hm]
    unfold parseIntJS
    rw [hdata, List.dropWhile_cons]
    rw [show isWS '-' = false from by decide, if_neg (by simp)]
    show (parseNatLead (natChars m.natAbs)).map (fun n => -(n : Int)) = some m
    rw [parseNatLead_natChars]
    show some (-(m.natAbs : Int)) = some m
    congr 1
    omega
  · have hdata : (intToStr m).data = natChars m.natAbs := by
      unfold intToStr
      rw [if_neg hm]
    obtain ⟨d, cs, hshape⟩ := natChars_head_shape m.natAbs
    unfold parseIntJS
    rw [hdata, dropWhile_eq_self_of_all _ (natChars_all_nonws m.natAbs)]
    split
    · rename_i rest heq
      exfalso
      rw [hshape] at heq
      have : digitChar10 d = '-' := by
        have := congrArg (fun l => l.head?) heq
        simpa using this
      exact (digitChar10_ne_special d).2.2.2.2.2 this
    · rename_i rest heq
      exfalso
      rw [hshape] at heq
      have hplus : digitChar10 d = '+' := by
        have := congrArg (fun l => l.head?) heq
        simpa using this
      have : isDigitC '+' = true := by
        rw [← hplus]
        exact digitChar10_digit d
      exact absurd this (by decide)
    · rw [parseNatLead_natChars]
      show some ((m.natAbs : Int)) = some m
      congr 1
      omega

theorem not_starts_dash (p q : String) (c : Char) (cs : List Char)
    (hp : p.data = c :: cs) (hc : c ≠ '-') :
    startsWithStr (p ++ q) "---" = false := by
  unfold startsWithStr
  rw [String.data_append, hp]
  show (decide (('-' : Char) = c) && isPrefixC ['-', '-'] (cs ++ q.data)) = false
  rw [decide_eq_false (fun h : ('-' : Char) = c => hc h.symm)]
  simp

theorem closeSplit_no_close (fmls b : Lines)
    (h : ∀ l ∈ fmls, startsWithStr l "---" = false) :
    closeSplit (fmls ++ "---" :: b) = some fmls := by
  induction fmls with
  | nil =>
    show closeSplit ("---" :: b) = some []
    rw [closeSplit, if_pos (by decide)]
  | cons l ls ih =>
    rw [List.cons_append, closeSplit, if_neg (by simp [h l (List.mem_cons_self l ls)]),
      ih (fun x hx => h x (List.mem_cons_of_mem l hx))]
    rfl

theorem takeUntilClose_no_close (f0 : String) (fmls b : Lines)
    (h : ∀ l ∈ fmls, startsWithStr l "---" = false) :
    takeUntilClose ((f0 :: fmls) ++ "---" :: b) = some (f0 :: fmls) := by
  show (closeSplit (fmls ++ "---" :: b)).map (f0 :: ·) = some (f0 :: fmls)
  rw [closeSplit_no_close fmls b h]
  rfl

theorem parseFM_block (f0 : String) (fmls b : Lines)
    (h : ∀ l ∈ fmls, startsWithStr l "---" = false) :
    parseFM ("---" :: (f0 :: fmls) ++ "---" :: b) = some (parseLines (f0 :: fmls)) := by
  unfold parseFM fmSplitLines
  show Option.map parseLines
      (if ("---" : String) = "---" then takeUntilClose ((f0 :: fmls) ++ "---" :: b) else none)
    = some (parseLines (f0 :: fmls))
  rw [if_pos rfl, takeUntilClose_no_close f0 fmls b h]
  rfl

/-- C3 counterexample: a concrete album whose post file has the body line
`hello body` after the front matter; a successful metadata update rewrites
the file without that line — the body is lost, not preserved
(`server.js` lines 450-468 write only `generatePostMarkdown`'s output). -/
theorem update_discards_body_counterexample :
    (updateThenContent "2024-06-01" "g" "2024-01-02-g.md"
        ["---", "title: t", "date: 2024-01-02", "tags: [x]", "---", "hello body"]
        (some []) { description := some "X" }).isSome = true
    ∧ "hello body" ∈ ["---", "title: t", "date: 2024-01-02", "tags: [x]", "---", "hello body"]
    ∧ "hello body" ∉ (updateThenContent "2024-06-01" "g" "2024-01-02-g.md"
        ["---", "title: t", "date: 2024-01-02", "tags: [x]", "---", "hello body"]
        (some []) { description := some "X" }).getD [] := by
  refine ⟨by decide, by decide, by decide⟩

/-- C3 (amended): the update route does not preserve the Markdown body — it
rewrites the post file from the parsed front matter alone, so the written
content is independent of whatever followed the front-matter block, and a
prior body is discarded (`server.js` line 468 writes exactly the
regenerated front-matter block). -/
theorem update_body_independent (today slug postFile : String) (json : Option JsonArr)
    (r : UpdateReq) (f0 : String) (fmls b1 b2 : Lines)
    (h : ∀ l ∈ fmls, startsWithStr l "---" = false) :
    updateThenContent today slug postFile ("---" :: (f0 :: fmls) ++ "---" :: b1) json r
      = updateThenContent today slug postFile ("---" :: (f0 :: fmls) ++ "---" :: b2) json r := by
  unfold updateThenContent readAlbum
  rw [parseFM_block f0 fmls b1 h, parseFM_block f0 fmls b2 h]

/-- Witness for the amended C3: two different bodies yield the same rewritten
content for a concrete album. -/
theorem update_body_independent_witness :
    updateThenContent "2024-06-01" "g" "2024-01-02-g.md"
        ("---" :: ["title: t", "date: 2024-01-02", "tags: [x]"] ++ "---" :: ["hello body"])
        (some []) { description := some "X" }
      = updateThenContent "2024-06-01" "g" "2024-01-02-g.md"
        ("---" :: ["title: t", "date: 2024-01-02", "tags: [x]"] ++ "---" :: ["other", "lines"])
        (some []) { description := some "X" } := by
  exact update_body_independent "2024-06-01" "g" "2024-01-02-g.md" (some [])
    { description := some "X" } "title: t" ["date: 2024-01-02", "tags: [x]"]
    ["hello body"] ["other", "lines"] (by decide)

theorem generatePostMarkdown_eval (today t dsc v dt : String) (tags : List String)
    (slug : String) (i1 i2 i3 i4 i5 i6 i7 i8 : Int)
    (ht1 : t ≠ "") (hdsc1 : dsc ≠ "") (hdt1 : dt ≠ "") :
    generatePostMarkdown today
      { title := .str t, description := .str dsc, developer := .str v, date := .str dt,
        tags := tags, slug := slug, cardImage := i1, cardOffset := i2, cardOffsetX := i3,
        cardZoom := i4, bannerImage := i5, bannerOffset := i6, bannerOffsetX := i7,
        bannerZoom := i8 }
    = some ["---", "layout: post",
        "date: " ++ dt,
        "title: " ++ ("\"" ++ escQ t ++ "\""),
        "description: " ++ ("\"" ++ escQ dsc ++ "\""),
        "developer: " ++ (if v = "" then "\"" ++ "" ++ "\"" else "\"" ++ escQ v ++ "\""),
        "categories: [virtual-photography]",
        tagsLine tags,
        "slug: " ++ slug,
        "card-image: " ++ intOrStr i1 0,
        "card-offset: " ++ intOrStr i2 50,
        "card-offset-x: " ++ intOrStr i3 50,
        "card-zoom: " ++ intOrStr i4 100,
        "banner-image: " ++ intOrStr i5 0,
        "banner-offset: " ++ intOrStr i6 50,
        "banner-offset-x: " ++ intOrStr i7 50,
        "banner-zoom: " ++ intOrStr i8 100,
        "---"] := by
  show some ["---", "layout: post",
      "date: " ++ fmToStr (fmOr (some (.str dt)) (.str today)),
      "title: " ++ (if t = "" then "\"" ++ "" ++ "\"" else "\"" ++ escQ t ++ "\""),
      "description: " ++ (if dsc = "" then "\"" ++ "Virtual Photography" ++ "\""
        else "\"" ++ escQ dsc ++ "\""),
      "developer: " ++ (if v = "" then "\"" ++ "" ++ "\"" else "\"" ++ escQ v ++ "\""),
      "categories: [virtual-photography]",
      tagsLine tags,
      "slug: " ++ slug,
      "card-image: " ++ intOrStr i1 0,
      "card-offset: " ++ intOrStr i2 50,
      "card-offset-x: " ++ intOrStr i3 50,
      "card-zoom: " ++ intOrStr i4 100,
      "banner-image: " ++ intOrStr i5 0,
      "banner-offset: " ++ intOrStr i6 50,
      "banner-offset-x: " ++ intOrStr i7 50,
      "banner-zoom: " ++ intOrStr i8 100,
      "---"] = _
  rw [if_neg ht1, if_neg hdsc1, fmOr_str_ne dt hdt1]
  rfl

theorem value_quoted_parse (s : String) (hq : ∀ c ∈ s.data, c ≠ '"')
    (hb : strBracketed s = false) :
    procValue (jsTrim ("\"" ++ escQ s ++ "\"")) = .str s := by
  rw [escQ_id s hq]
  have htrim : jsTrim ("\"" ++ s ++ "\"") = "\"" ++ s ++ "\"" := by
    show String.mk (trimList ('"' :: (s.data ++ ['"']))) = "\"" ++ s ++ "\""
    rw [trimList_wrap '"' '"' s.data (by decide) (by decide)]
    rfl
  rw [htrim]
  exact procValue_quoted s hb

theorem value_tags_parse (ts : List String) (hne : ts ≠ [])
    (hgood : ∀ t ∈ ts, (∀ c ∈ t.data, c ≠ ',') ∧ jsTrim t = t) :
    procValue (jsTrim ("[" ++ joinSep ", " ts ++ "]")) = .arr ts := by
  have htrim : jsTrim ("[" ++ joinSep ", " ts ++ "]") = "[" ++ joinSep ", " ts ++ "]" := by
    show String.mk (trimList ('[' :: ((joinSep ", " ts).data ++ [']'])))
        = "[" ++ joinSep ", " ts ++ "]"
    rw [trimList_wrap '[' ']' (joinSep ", " ts).data (by decide) (by decide)]
    rfl
  rw [htrim]
  have := procValue_bracketed (joinSep ", " ts)
  rw [tags_roundtrip ts hne hgood] at this
  exact this

theorem value_int_parse (w : Int) :
    procValue (jsTrim (intToStr w)) = .str (intToStr w) := by
  rw [jsTrim_intToStr]
  exact procValue_plain (intToStr w) (intToStr_not_special w).1 (intToStr_not_special w).2

theorem int_roundtrip_zero (i : Int) : intOr (parseIntJS (intToStr (if i = 0 then 0 else i))) 0 = i := by
  by_cases hi : i = 0
  · subst hi
    rw [if_pos rfl, parseIntJS_intToStr]
    rfl
  · rw [if_neg hi, parseIntJS_intToStr]
    show (if i = 0 then (0 : Int) else i) = i
    rw [if_neg hi]

theorem int_roundtrip_dflt (i d : Int) (hi : i ≠ 0) :
    intOr (parseIntJS (intToStr (if i = 0 then d else i))) d = i := by
  rw [if_neg hi, parseIntJS_intToStr]
  show (if i = 0 then d else i) = i
  rw [if_neg hi]

theorem tagsLine_nonempty (ts : List String) (hne : ts ≠ []) :
    tagsLine ts = "tags: [" ++ joinSep ", " ts ++ "]" := by
  unfold tagsLine
  rw [if_pos (by simpa using List.length_pos.mpr hne)]

theorem not_starts_dash2 (p q r : String) (c : Char) (cs : List Char)
    (hp : p.data = c :: cs) (hc : c ≠ '-') :
    startsWithStr (p ++ q ++ r) "---" = false := by
  have h2 : (p ++ q).data = c :: (cs ++ q.data) := by
    rw [String.data_append, hp]; rfl
  exact not_starts_dash (p ++ q) r c (cs ++ q.data) h2 hc

theorem jsNumToStr_small (n : Int) (h : n.natAbs < 10 ^ 21) : jsNumToStr n = intToStr n := by
  unfold jsNumToStr
  rw [if_pos h]

theorem intOrStr_small (i d : Int) (hi : i.natAbs < 10 ^ 21) (hd : d.natAbs < 10 ^ 21) :
    intOrStr i d = intToStr (if i = 0 then d else i) := by
  unfold intOrStr
  apply jsNumToStr_small
  by_cases h0 : i = 0
  · rw [if_pos h0]; exact hd
  · rw [if_neg h0]; exact hi

theorem value_intOrStr (i d : Int) (hi : i.natAbs < 10 ^ 21) (hd : d.natAbs < 10 ^ 21) :
    procValue (jsTrim (intOrStr i d)) = FMVal.str (intOrStr i d) := by
  rw [intOrStr_small i d hi hd]
  exact value_int_parse _

theorem int_line_kv (k : String) (i d : Int) (hk : ∀ c ∈ k.data, isWordChar c = true)
    (hi : i.natAbs < 10 ^ 21) (hd : d.natAbs < 10 ^ 21) :
    lineKV (k ++ ": " ++ intOrStr i d) = some (k, FMVal.str (intOrStr i d)) := by
  have h0 := lineKV_keyval k (intOrStr i d) hk
  rw [value_intOrStr i d hi hd] at h0
  exact h0

theorem dev_line_kv (v : String) (h2 : ∀ c ∈ v.data, c ≠ '"') (h3 : strBracketed v = false) :
    lineKV ("developer: " ++ (if v = "" then "\"" ++ "" ++ "\"" else "\"" ++ escQ v ++ "\""))
      = some ("developer", FMVal.str v) := by
  by_cases hv0 : v = ""
  · subst hv0
    decide
  · rw [if_neg hv0]
    have h0 := lineKV_keyval "developer" ("\"" ++ escQ v ++ "\"") (by decide)
    rw [value_quoted_parse v h2 h3] at h0
    exact h0

theorem readAlbum_generated (slugA pf : String) (json : Option JsonArr)
    (t dsc v dt : String) (tags : List String) (slugW : String)
    (i1 i2 i3 i4 i5 i6 i7 i8 : Int)
    (ht1 : t ≠ "") (ht2 : ∀ c ∈ t.data, c ≠ '"') (ht3 : strBracketed t = false)
    (hdsc1 : dsc ≠ "") (hdsc2 : ∀ c ∈ dsc.data, c ≠ '"') (hdsc3 : strBracketed dsc = false)
    (hv2 : ∀ c ∈ v.data, c ≠ '"') (hv3 : strBracketed v = false)
    (hd1 : dt ≠ "") (hd2 : jsTrim dt = dt) (hd3 : strBracketed dt = false)
    (hd4 : strQuoteWrapped dt = false)
    (htags1 : tags ≠ []) (htags2 : ∀ x ∈ tags, (∀ c ∈ x.data, c ≠ ',') ∧ jsTrim x = x)
    (hi2 : i2 ≠ 0) (hi3 : i3 ≠ 0) (hi4 : i4 ≠ 0)
    (hi6 : i6 ≠ 0) (hi7 : i7 ≠ 0) (hi8 : i8 ≠ 0)
    (hb1 : i1.natAbs < 10 ^ 21) (hb2 : i2.natAbs < 10 ^ 21) (hb3 : i3.natAbs < 10 ^ 21)
    (hb4 : i4.natAbs < 10 ^ 21) (hb5 : i5.natAbs < 10 ^ 21) (hb6 : i6.natAbs < 10 ^ 21)
    (hb7 : i7.natAbs < 10 ^ 21) (hb8 : i8.natAbs < 10 ^ 21) :
    ∃ A : Album,
      readAlbum slugA pf
        ("---" ::
          ["layout: post",
           "date: " ++ dt,
           "title: " ++ ("\"" ++ escQ t ++ "\""),
           "description: " ++ ("\"" ++ escQ dsc ++ "\""),
           "developer: " ++ (if v = "" then "\"" ++ "" ++ "\"" else "\"" ++ escQ v ++ "\""),
           "categories: [virtual-photography]",
           "tags: [" ++ joinSep ", " tags ++ "]",
           "slug: " ++ slugW,
           "card-image: " ++ intOrStr i1 0,
           "card-offset: " ++ intOrStr i2 50,
           "card-offset-x: " ++ intOrStr i3 50,
           "card-zoom: " ++ intOrStr i4 100,
           "banner-image: " ++ intOrStr i5 0,
           "banner-offset: " ++ intOrStr i6 50,
           "banner-offset-x: " ++ intOrStr i7 50,
           "banner-zoom: " ++ intOrStr i8 100] ++ ["---"]) json = some A
      ∧ A.title = FMVal.str t ∧ A.description = FMVal.str dsc ∧ A.developer = FMVal.str v
      ∧ A.date = FMVal.str dt ∧ A.tags = tags
      ∧ A.cardImage = i1 ∧ A.cardOffset = i2 ∧ A.cardOffsetX = i3 ∧ A.cardZoom = i4
      ∧ A.bannerImage = i5 ∧ A.bannerOffset = i6 ∧ A.bannerOffsetX = i7 ∧ A.bannerZoom = i8
      ∧ A.images = normalizeImages json ∧ A.imageCount = (normalizeImages json).length
      ∧ A.slug = slugA ∧ A.postFile = pf := by
  have hnc : ∀ l ∈
      ["date: " ++ dt,
       "title: " ++ ("\"" ++ escQ t ++ "\""),
       "description: " ++ ("\"" ++ escQ dsc ++ "\""),
       "developer: " ++ (if v = "" then "\"" ++ "" ++ "\"" else "\"" ++ escQ v ++ "\""),
       "categories: [virtual-photography]",
       "tags: [" ++ joinSep ", " tags ++ "]",
       "slug: " ++ slugW,
       "card-image: " ++ intOrStr i1 0,
       "card-offset: " ++ intOrStr i2 50,
       "card-offset-x: " ++ intOrStr i3 50,
       "card-zoom: " ++ intOrStr i4 100,
       "banner-image: " ++ intOrStr i5 0,
       "banner-offset: " ++ intOrStr i6 50,
       "banner-offset-x: " ++ intOrStr i7 50,
       "banner-zoom: " ++ intOrStr i8 100], startsWithStr l "---" = false := by
    intro l hl
    simp only [List.mem_cons, List.not_mem_nil, or_false] at hl
    rcases hl with rfl|rfl|rfl|rfl|rfl|rfl|rfl|rfl|rfl|rfl|rfl|rfl|rfl|rfl|rfl
    · exact not_starts_dash _ _ 'd' ['a', 't', 'e', ':', ' '] (by decide) (by decide)
    · exact not_starts_dash _ _ 't' ['i', 't', 'l', 'e', ':', ' '] (by decide) (by decide)
    · exact not_starts_dash _ _ 'd'
        ['e', 's', 'c', 'r', 'i', 'p', 't', 'i', 'o', 'n', ':', ' '] (by decide) (by decide)
    · exact not_starts_dash _ _ 'd'
        ['e', 'v', 'e', 'l', 'o', 'p', 'e', 'r', ':', ' '] (by decide) (by decide)
    · decide
    · exact not_starts_dash2 "tags: [" (joinSep ", " tags) "]" 't'
        ['a', 'g', 's', ':', ' ', '['] (by decide) (by decide)
    · exact not_starts_dash _ _ 's' ['l', 'u', 'g', ':', ' '] (by decide) (by decide)
    · exact not_starts_dash _ _ 'c'
        ['a', 'r', 'd', '-', 'i', 'm', 'a', 'g', 'e', ':', ' '] (by decide) (by decide)
    · exact not_starts_dash _ _ 'c'
        ['a', 'r', 'd', '-', 'o', 'f', 'f', 's', 'e', 't', ':', ' '] (by decide) (by decide)
    · exact not_starts_dash _ _ 'c'
        ['a', 'r', 'd', '-', 'o', 'f', 'f', 's', 'e', 't', '-', 'x', ':', ' ']
        (by decide) (by decide)
    · exact not_starts_dash _ _ 'c'
        ['a', 'r', 'd', '-', 'z', 'o', 'o', 'm', ':', ' '] (by decide) (by decide)
    · exact not_starts_dash _ _ 'b'
        ['a', 'n', 'n', 'e', 'r', '-', 'i', 'm', 'a', 'g', 'e', ':', ' '] (by decide) (by decide)
    · exact not_starts_dash _ _ 'b'
        ['a', 'n', 'n', 'e', 'r', '-', 'o', 'f', 'f', 's', 'e', 't', ':', ' ']
        (by decide) (by decide)
    · exact not_starts_dash _ _ 'b'
        ['a', 'n', 'n', 'e', 'r', '-', 'o', 'f', 'f', 's', 'e', 't', '-', 'x', ':', ' ']
        (by decide) (by decide)
    · exact not_starts_dash _ _ 'b'
        ['a', 'n', 'n', 'e', 'r', '-', 'z', 'o', 'o', 'm', ':', ' '] (by decide) (by decide)
  have hl1 : lineKV "layout: post" = some ("layout", FMVal.str "post") := by decide
  have hdvp : procValue (jsTrim dt) = FMVal.str dt := by
    rw [hd2]; exact procValue_plain dt hd4 hd3
  have hl2 : lineKV ("date: " ++ dt) = some ("date", FMVal.str dt) := by
    have h0 := lineKV_keyval "date" dt (by decide)
    rw [hdvp] at h0
    exact h0
  have hl3 : lineKV ("title: " ++ ("\"" ++ escQ t ++ "\"")) = some ("title", FMVal.str t) := by
    have h0 := lineKV_keyval "title" ("\"" ++ escQ t ++ "\"") (by decide)
    rw [value_quoted_parse t ht2 ht3] at h0
    exact h0
  have hl4 : lineKV ("description: " ++ ("\"" ++ escQ dsc ++ "\""))
      = some ("description", FMVal.str dsc) := by
    have h0 := lineKV_keyval "description" ("\"" ++ escQ dsc ++ "\"") (by decide)
    rw [value_quoted_parse dsc hdsc2 hdsc3] at h0
    exact h0
  have hl5 : lineKV ("developer: " ++ (if v = "" then "\"" ++ "" ++ "\"" else "\"" ++ escQ v ++ "\""))
      = some ("developer", FMVal.str v) := dev_line_kv v hv2 hv3
  have hl6 : lineKV "categories: [virtual-photography]"
      = some ("categories", FMVal.arr ["virtual-photography"]) := by decide
  have hl7 : lineKV ("tags: [" ++ joinSep ", " tags ++ "]") = some ("tags", FMVal.arr tags) := by
    have h0 := lineKV_keyval "tags" ("[" ++ joinSep ", " tags ++ "]") (by decide)
    rw [value_tags_parse tags htags1 htags2] at h0
    exact h0
  have hl8 : lineKV ("slug: " ++ slugW) = some ("slug", procValue (jsTrim slugW)) :=
    lineKV_keyval "slug" slugW (by decide)
  have hl9 : lineKV ("card-image: " ++ intOrStr i1 0)
      = some ("card-image", FMVal.str (intOrStr i1 0)) :=
    int_line_kv "card-image" i1 0 (by decide) hb1 (by decide)
  have hl10 : lineKV ("card-offset: " ++ intOrStr i2 50)
      = some ("card-offset", FMVal.str (intOrStr i2 50)) :=
    int_line_kv "card-offset" i2 50 (by decide) hb2 (by decide)
  have hl11 : lineKV ("card-offset-x: " ++ intOrStr i3 50)
      = some ("card-offset-x", FMVal.str (intOrStr i3 50)) :=
    int_line_kv "card-offset-x" i3 50 (by decide) hb3 (by decide)
  have hl12 : lineKV ("card-zoom: " ++ intOrStr i4 100)
      = some ("card-zoom", FMVal.str (intOrStr i4 100)) :=
    int_line_kv "card-zoom" i4 100 (by decide) hb4 (by decide)
  have hl13 : lineKV ("banner-image: " ++ intOrStr i5 0)
      = some ("banner-image", FMVal.str (intOrStr i5 0)) :=
    int_line_kv "banner-image" i5 0 (by decide) hb5 (by decide)
  have hl14 : lineKV ("banner-offset: " ++ intOrStr i6 50)
      = some ("banner-offset", FMVal.str (intOrStr i6 50)) :=
    int_line_kv "banner-offset" i6 50 (by decide) hb6 (by decide)
  have hl15 : lineKV ("banner-offset-x: " ++ intOrStr i7 50)
      = some ("banner-offset-x", FMVal.str (intOrStr i7 50)) :=
    int_line_kv "banner-offset-x" i7 50 (by decide) hb7 (by decide)
  have hl16 : lineKV ("banner-zoom: " ++ intOrStr i8 100)
      = some ("banner-zoom", FMVal.str (intOrStr i8 100)) :=
    int_line_kv "banner-zoom" i8 100 (by decide) hb8 (by decide)
  have hparse : parseLines
      ["layout: post",
       "date: " ++ dt,
       "title: " ++ ("\"" ++ escQ t ++ "\""),
       "description: " ++ ("\"" ++ escQ dsc ++ "\""),
       "developer: " ++ (if v = "" then "\"" ++ "" ++ "\"" else "\"" ++ escQ v ++ "\""),
       "categories: [virtual-photography]",
       "tags: [" ++ joinSep ", " tags ++ "]",
       "slug: " ++ slugW,
       "card-image: " ++ intOrStr i1 0,
       "card-offset: " ++ intOrStr i2 50,
       "card-offset-x: " ++ intOrStr i3 50,
       "card-zoom: " ++ intOrStr i4 100,
       "banner-image: " ++ intOrStr i5 0,
       "banner-offset: " ++ intOrStr i6 50,
       "banner-offset-x: " ++ intOrStr i7 50,
       "banner-zoom: " ++ intOrStr i8 100]
      = [("layout", FMVal.str "post"),
         ("date", FMVal.str dt),
         ("title", FMVal.str t),
         ("description", FMVal.str dsc),
         ("developer", FMVal.str v),
         ("categories", FMVal.arr ["virtual-photography"]),
         ("tags", FMVal.arr tags),
         ("slug", procValue (jsTrim slugW)),
         ("card-image", FMVal.str (intOrStr i1 0)),
         ("card-offset", FMVal.str (intOrStr i2 50)),
         ("card-offset-x", FMVal.str (intOrStr i3 50)),
         ("card-zoom", FMVal.str (intOrStr i4 100)),
         ("banner-image", FMVal.str (intOrStr i5 0)),
         ("banner-offset", FMVal.str (intOrStr i6 50)),
         ("banner-offset-x", FMVal.str (intOrStr i7 50)),
         ("banner-zoom", FMVal.str (intOrStr i8 100))] := by
    simp only [parseLines, List.filterMap_cons, hl1, hl2, hl3, hl4, hl5, hl6, hl7, hl8,
      hl9, hl10, hl11, hl12, hl13, hl14, hl15, hl16, List.filterMap_nil]
  refine ⟨mkAlbum slugA
      [("layout", FMVal.str "post"),
       ("date", FMVal.str dt),
       ("title", FMVal.str t),
       ("description", FMVal.str dsc),
       ("developer", FMVal.str v),
       ("categories", FMVal.arr ["virtual-photography"]),
       ("tags", FMVal.arr tags),
       ("slug", procValue (jsTrim slugW)),
       ("card-image", FMVal.str (intOrStr i1 0)),
       ("card-offset", FMVal.str (intOrStr i2 50)),
       ("card-offset-x", FMVal.str (intOrStr i3 50)),
       ("card-zoom", FMVal.str (intOrStr i4 100)),
       ("banner-image", FMVal.str (intOrStr i5 0)),
       ("banner-offset", FMVal.str (intOrStr i6 50)),
       ("banner-offset-x", FMVal.str (intOrStr i7 50)),
       ("banner-zoom", FMVal.str (intOrStr i8 100))]
      (normalizeImages json) pf (slugA ++ ".json"),
    ?_, ?_, ?_, ?_, ?_, ?_, ?_, ?_, ?_, ?_, ?_, ?_, ?_, ?_, ?_, ?_, ?_, ?_⟩
  · unfold readAlbum
    rw [parseFM_block _ _ _ hnc, hparse]
    rfl
  · show fmOr (some (FMVal.str t)) (FMVal.str slugA) = FMVal.str t
    exact fmOr_str_ne t ht1 _
  · show fmOr (some (FMVal.str dsc)) (FMVal.str "Virtual Photography") = FMVal.str dsc
    exact fmOr_str_ne dsc hdsc1 _
  · show fmOr (some (FMVal.str v)) (FMVal.str "") = FMVal.str v
    by_cases hv0 : v = ""
    · subst hv0
      exact fmOr_str_empty _
    · exact fmOr_str_ne v hv0 _
  · show fmOr (some (FMVal.str dt)) (FMVal.str "") = FMVal.str dt
    exact fmOr_str_ne dt hd1 _
  · show parseTagsFM (some (FMVal.arr tags)) = tags
    rfl
  · show intOr (parseIntJS (intOrStr i1 0)) 0 = i1
    rw [intOrStr_small i1 0 hb1 (by decide)]
    exact int_roundtrip_zero i1
  · show intOr (parseIntJS (intOrStr i2 50)) 50 = i2
    rw [intOrStr_small i2 50 hb2 (by decide)]
    exact int_roundtrip_dflt i2 50 hi2
  · show intOr (parseIntJS (intOrStr i3 50)) 50 = i3
    rw [intOrStr_small i3 50 hb3 (by decide)]
    exact int_roundtrip_dflt i3 50 hi3
  · show intOr (parseIntJS (intOrStr i4 100)) 100 = i4
    rw [intOrStr_small i4 100 hb4 (by decide)]
    exact int_roundtrip_dflt i4 100 hi4
  · show intOr (parseIntJS (intOrStr i5 0)) 0 = i5
    rw [intOrStr_small i5 0 hb5 (by decide)]
    exact int_roundtrip_zero i5
  · show intOr (parseIntJS (intOrStr i6 50)) 50 = i6
    rw [intOrStr_small i6 50 hb6 (by decide)]
    exact int_roundtrip_dflt i6 50 hi6
  · show intOr (parseIntJS (intOrStr i7 50)) 50 = i7
    rw [intOrStr_small i7 50 hb7 (by decide)]
    exact int_roundtrip_dflt i7 50 hi7
  · show intOr (parseIntJS (intOrStr i8 100)) 100 = i8
    rw [intOrStr_small i8 100 hb8 (by decide)]
    exact int_roundtrip_dflt i8 100 hi8
  · rfl
  · rfl
  · rfl
  · rfl

/-- C2 (amended): the update route is a partial update only up to the
front-matter round trip.  For an album whose stored fields survive that round
trip — title, description and developer free of double quotes and not
bracket-shaped, a non-empty trimmed non-bracketed unquoted date, a non-empty
list of trimmed comma-free tags, and layout integers inside the JS
safe-integer range `|n| < 2^53` (from `10^21` the template itself prints
exponential notation, which `parseInt` re-reads as its mantissa digit) — an
update providing only `description` yields an album whose description is the
new value and whose title, developer, date, tags, all eight layout integers,
images, image count, slug and post file are unchanged (`server.js` lines
434-468 merge the request over the parsed album and rewrite the front
matter). -/
theorem update_desc_only_partial (today slug pfile : String) (post : Lines)
    (json : Option JsonArr) (a : Album) (t dsc v dt : String)
    (H : readAlbum slug pfile post json = some a)
    (ht : a.title = FMVal.str t) (ht1 : t ≠ "") (ht2 : ∀ c ∈ t.data, c ≠ '"')
    (ht3 : strBracketed t = false)
    (hdsc1 : dsc ≠ "") (hdsc2 : ∀ c ∈ dsc.data, c ≠ '"') (hdsc3 : strBracketed dsc = false)
    (hv : a.developer = FMVal.str v) (hv2 : ∀ c ∈ v.data, c ≠ '"')
    (hv3 : strBracketed v = false)
    (hd : a.date = FMVal.str dt) (hd1 : dt ≠ "") (hd2 : jsTrim dt = dt)
    (hd3 : strBracketed dt = false) (hd4 : strQuoteWrapped dt = false)
    (htags1 : a.tags ≠ [])
    (htags2 : ∀ x ∈ a.tags, (∀ c ∈ x.data, c ≠ ',') ∧ jsTrim x = x)
    (hB1 : a.cardImage.natAbs < 2 ^ 53) (hB2 : a.cardOffset.natAbs < 2 ^ 53)
    (hB3 : a.cardOffsetX.natAbs < 2 ^ 53) (hB4 : a.cardZoom.natAbs < 2 ^ 53)
    (hB5 : a.bannerImage.natAbs < 2 ^ 53) (hB6 : a.bannerOffset.natAbs < 2 ^ 53)
    (hB7 : a.bannerOffsetX.natAbs < 2 ^ 53) (hB8 : a.bannerZoom.natAbs < 2 ^ 53) :
    ∃ a', updateThenRead today slug pfile post json { description := some dsc } = some a'
      ∧ a'.description = FMVal.str dsc
      ∧ a'.title = a.title ∧ a'.developer = a.developer ∧ a'.date = a.date
      ∧ a'.tags = a.tags
      ∧ a'.cardImage = a.cardImage ∧ a'.cardOffset = a.cardOffset
      ∧ a'.cardOffsetX = a.cardOffsetX ∧ a'.cardZoom = a.cardZoom
      ∧ a'.bannerImage = a.bannerImage ∧ a'.bannerOffset = a.bannerOffset
      ∧ a'.bannerOffsetX = a.bannerOffsetX ∧ a'.bannerZoom = a.bannerZoom
      ∧ a'.images = a.images ∧ a'.imageCount = a.imageCount
      ∧ a'.slug = a.slug ∧ a'.postFile = a.postFile := by
  obtain ⟨fm, hpf⟩ : ∃ fm, parseFM post = some fm := by
    rcases hp : parseFM post with _ | fm
    · exfalso
      unfold readAlbum at H
      rw [hp] at H
      exact Option.noConfusion H
    · exact ⟨fm, rfl⟩
  have H2 := H
  unfold readAlbum at H2
  rw [hpf] at H2
  have ha : mkAlbum slug fm (normalizeImages json) pfile (slug ++ ".json") = a :=
    Option.some.inj H2
  have hco : a.cardOffset ≠ 0 := by
    rw [← ha]; exact intOr_ne_zero _ _ (by decide)
  have hcox : a.cardOffsetX ≠ 0 := by
    rw [← ha]; exact intOr_ne_zero _ _ (by decide)
  have hcz : a.cardZoom ≠ 0 := by
    rw [← ha]; exact intOr_ne_zero _ _ (by decide)
  have hbo : a.bannerOffset ≠ 0 := by
    rw [← ha]; exact intOr_ne_zero _ _ (by decide)
  have hbox : a.bannerOffsetX ≠ 0 := by
    rw [← ha]; exact intOr_ne_zero _ _ (by decide)
  have hbz : a.bannerZoom ≠ 0 := by
    rw [← ha]; exact intOr_ne_zero _ _ (by decide)
  have hpow : (2 ^ 53 : Nat) ≤ 10 ^ 21 := by decide
  have hgen := generatePostMarkdown_eval today t dsc v dt a.tags a.slug a.cardImage
    a.cardOffset a.cardOffsetX a.cardZoom a.bannerImage a.bannerOffset a.bannerOffsetX
    a.bannerZoom ht1 hdsc1 hd1
  have hupd2 : updateAlbumMetadata today a { description := some dsc }
      = some (a.postFile,
        ["---", "layout: post",
         "date: " ++ dt,
         "title: " ++ ("\"" ++ escQ t ++ "\""),
         "description: " ++ ("\"" ++ escQ dsc ++ "\""),
         "developer: " ++ (if v = "" then "\"" ++ "" ++ "\"" else "\"" ++ escQ v ++ "\""),
         "categories: [virtual-photography]",
         tagsLine a.tags,
         "slug: " ++ a.slug,
         "card-image: " ++ intOrStr a.cardImage 0,
         "card-offset: " ++ intOrStr a.cardOffset 50,
         "card-offset-x: " ++ intOrStr a.cardOffsetX 50,
         "card-zoom: " ++ intOrStr a.cardZoom 100,
         "banner-image: " ++ intOrStr a.bannerImage 0,
         "banner-offset: " ++ intOrStr a.bannerOffset 50,
         "banner-offset-x: " ++ intOrStr a.bannerOffsetX 50,
         "banner-zoom: " ++ intOrStr a.bannerZoom 100,
         "---"]) := by
    have h0 : updateAlbumMetadata today a { description := some dsc }
        = (generatePostMarkdown today
            { title := a.title, description := FMVal.str dsc, developer := a.developer,
              date := a.date, tags := a.tags, slug := a.slug,
              cardImage := a.cardImage, cardOffset := a.cardOffset,
              cardOffsetX := a.cardOffsetX, cardZoom := a.cardZoom,
              bannerImage := a.bannerImage, bannerOffset := a.bannerOffset,
              bannerOffsetX := a.bannerOffsetX, bannerZoom := a.bannerZoom }).map
          (fun ls => (a.postFile, ls)) := rfl
    rw [h0, ht, hv, hd, hgen]
    rfl
  rw [tagsLine_nonempty a.tags htags1] at hupd2
  obtain ⟨A, hA, pt, pdsc, pv, pd, ptg, q1, q2, q3, q4, q5, q6, q7, q8,
      rimg, rcnt, rslug, rpfile⟩ :=
    readAlbum_generated slug a.postFile json t dsc v dt a.tags a.slug a.cardImage
      a.cardOffset a.cardOffsetX a.cardZoom a.bannerImage a.bannerOffset a.bannerOffsetX
      a.bannerZoom ht1 ht2 ht3 hdsc1 hdsc2 hdsc3 hv2 hv3 hd1 hd2 hd3 hd4 htags1 htags2
      hco hcox hcz hbo hbox hbz
      (lt_of_lt_of_le hB1 hpow) (lt_of_lt_of_le hB2 hpow) (lt_of_lt_of_le hB3 hpow)
      (lt_of_lt_of_le hB4 hpow) (lt_of_lt_of_le hB5 hpow) (lt_of_lt_of_le hB6 hpow)
      (lt_of_lt_of_le hB7 hpow) (lt_of_lt_of_le hB8 hpow)
  refine ⟨A, ?_, pdsc, pt.trans ht.symm, pv.trans hv.symm, pd.trans hd.symm, ptg,
    q1, q2, q3, q4, q5, q6, q7, q8,
    rimg.trans (congrArg Album.images ha), rcnt.trans (congrArg Album.imageCount ha),
    rslug.trans (congrArg Album.slug ha), rpfile⟩
  unfold updateThenRead
  rw [H]
  show (updateAlbumMetadata today a { description := some dsc }).bind _ = some A
  rw [hupd2]
  exact hA

/-- C2 counterexample to the literal claim: for an album whose stored title
contains a double quote, an update providing only `description` also changes
`title` — the writer re-escapes the quote (`server.js` line 273), so the
re-read title gains a backslash and is not bit-identical to its prior
value. -/
theorem update_desc_changes_title_counterexample :
    ∃ a a', readAlbum "g" "2024-01-02-g.md"
        ["---", "title: a\"b", "date: 2024-01-02", "tags: [x]", "---"] (some []) = some a
      ∧ updateThenRead "2024-06-01" "g" "2024-01-02-g.md"
          ["---", "title: a\"b", "date: 2024-01-02", "tags: [x]", "---"] (some [])
          { description := some "X" } = some a'
      ∧ a.title = FMVal.str "a\"b"
      ∧ a'.title ≠ a.title := by
  refine ⟨_, _, rfl, rfl, by decide, by decide⟩

/-- Witness for the amended C2: a concrete clean album updated with only a
new description keeps every other aggregate field. -/
theorem update_desc_only_partial_witness :
    ∃ a', updateThenRead "2024-06-01" "g" "2024-01-02-g.md"
        ["---", "title: Nice Game", "developer: Studio", "date: 2024-01-02",
         "tags: [scenic, night]", "---"] (some [])
        { description := some "New desc" } = some a'
      ∧ a'.description = FMVal.str "New desc"
      ∧ a'.title = FMVal.str "Nice Game" ∧ a'.developer = FMVal.str "Studio"
      ∧ a'.date = FMVal.str "2024-01-02"
      ∧ a'.tags = ["scenic", "night"]
      ∧ a'.cardImage = 0 ∧ a'.cardOffset = 50 ∧ a'.cardOffsetX = 50 ∧ a'.cardZoom = 100
      ∧ a'.bannerImage = 0 ∧ a'.bannerOffset = 50 ∧ a'.bannerOffsetX = 50
      ∧ a'.bannerZoom = 100
      ∧ a'.images = [] ∧ a'.imageCount = 0
      ∧ a'.slug = "g" ∧ a'.postFile = "2024-01-02-g.md" := by
  exact update_desc_only_partial "2024-06-01" "g" "2024-01-02-g.md"
    ["---", "title: Nice Game", "developer: Studio", "date: 2024-01-02",
     "tags: [scenic, night]", "---"] (some [])
    ⟨"g", FMVal.str "Nice Game", FMVal.str "Virtual Photography", FMVal.str "Studio",
     FMVal.str "2024-01-02", ["scenic", "night"], 0, 50, 50, 100, 0, 50, 50, 100,
     [], 0, "2024-01-02-g.md", "g.json"⟩
    "Nice Game" "New desc" "Studio" "2024-01-02"
    (by decide) rfl (by decide) (by decide) (by decide) (by decide) (by decide) (by decide)
    rfl (by decide) (by decide) rfl (by decide) (by decide) (by decide) (by decide)
    (by decide) (by decide)
    (by decide) (by decide) (by decide) (by decide)
    (by decide) (by decide) (by decide) (by decide)
